import Mathlib

/-!
# react-pixi host config: `src/reconciler/hostconfig.js`

A shallow embedding of the reconciler host config and the properties of its
property diffing, child insertion, text-node rejection, event notification and
visibility hooks.

JavaScript values are the type `Val`; objects are known by their identity
(`Val.ref`).  A props dictionary is the list of its own enumerable entries in
enumeration order.  Code with effects runs in `Eff`: a function from the world
to an outcome (a value or a thrown error) and the world afterwards, so that
what was mutated before a throw is still there.
-/

namespace ReactPixi

/-! ## Values -/

/-- JavaScript values as far as the host config looks at them.  Numbers are the
integers and `NaN` (the one number that is not strictly equal to itself);
every object, function and array is a reference compared by identity. -/
inductive Val where
  | undefined
  | null
  | bool (b : Bool)
  | num (n : Int)
  | nan
  | str (s : String)
  | ref (id : Nat)
deriving DecidableEq, Repr

/-- The operator `a === b`. -/
def strictEq : Val → Val → Bool
  | .nan, _ => false
  | _, .nan => false
  | a, b => decide (a = b)

/-- The test `v == null`: true of `null` and `undefined` only. -/
def looseEqNull : Val → Bool
  | .undefined => true
  | .null => true
  | _ => false

/-! ## Props dictionaries -/

/-- A props object: its own enumerable entries, in enumeration order.  Only own
keys are looked at: no key is inherited, and `hasOwnProperty` is the method of
the language, not an entry of the object. -/
abbrev Props := List (String × Val)

/-- The keys that `for (let propKey in props)` visits, in order. -/
def Props.keys (props : Props) : List String := props.map Prod.fst

/-- The call `props.hasOwnProperty(propKey)`. -/
def Props.hasOwnProperty (props : Props) (propKey : String) : Bool :=
  (props.lookup propKey).isSome

/-- The read `props[propKey]`: `undefined` for a key that is not there. -/
def Props.get (props : Props) (propKey : String) : Val :=
  (props.lookup propKey).getD Val.undefined

/-- An object has each own key once. -/
def Props.WellFormed (props : Props) : Prop := props.keys.Nodup

instance (props : Props) : Decidable props.WellFormed := by
  unfold Props.WellFormed; infer_instance

/-- Modelled from the spec: the constant `CHILDREN` of `src/utils/props`, the
name of the children key. -/
def CHILDREN : String := "children"

/-! ## diffProperties -/

/-- An update payload: `null`, or the flat array `[key, value, key, value, ...]`. -/
abbrev Payload := Option (List Val)

/-- The statements `if (!updatePayload) { updatePayload = [] }` followed by
`updatePayload.push(propKey, value)`. -/
def queue (updatePayload : Payload) (propKey : String) (value : Val) : Payload :=
  let arr := match updatePayload with
    | none => []
    | some arr => arr
  some (arr ++ [Val.str propKey, value])

/-- The body of the first loop of `diffProperties`, over the keys of `lastProps`. -/
def deletedStep (lastProps nextProps : Props) (updatePayload : Payload) (propKey : String) :
    Payload :=
  if nextProps.hasOwnProperty propKey || !lastProps.hasOwnProperty propKey
      || looseEqNull (lastProps.get propKey) then
    updatePayload
  else if propKey = CHILDREN then
    updatePayload
  else
    queue updatePayload propKey Val.null

/-- The body of the second loop of `diffProperties`, over the keys of `nextProps`.
`lastProps` is an object here, so `lastProps != null ? lastProps[propKey] : undefined`
is the read `lastProps[propKey]`. -/
def changedStep (lastProps nextProps : Props) (updatePayload : Payload) (propKey : String) :
    Payload :=
  let nextProp := nextProps.get propKey
  let lastProp := lastProps.get propKey
  if !nextProps.hasOwnProperty propKey || strictEq nextProp lastProp
      || (looseEqNull nextProp && looseEqNull lastProp) then
    updatePayload
  else if propKey = CHILDREN then
    updatePayload
  else
    queue updatePayload propKey nextProp

/-- The function `diffProperties(pixiElement, type, lastProps, nextProps, rootContainerElement)`. -/
def diffProperties (_pixiElement _type : Val) (lastProps nextProps : Props)
    (_rootContainerElement : Val) : Payload :=
  let updatePayload := lastProps.keys.foldl (deletedStep lastProps nextProps) none
  nextProps.keys.foldl (changedStep lastProps nextProps) updatePayload

/-! ### The diff as the specification words it -/

/-- A deleted property: not `children`, owned by `lastProps` with a value that is
neither `null` nor `undefined`, and not owned by `nextProps`. -/
def isDeleted (lastProps nextProps : Props) (k : String) : Bool :=
  decide (k ≠ CHILDREN) && lastProps.hasOwnProperty k && !looseEqNull (lastProps.get k)
    && !nextProps.hasOwnProperty k

/-- A changed property: not `children`, owned by `nextProps`, with a value that is
not strictly equal to the one `lastProps` has and is not nullish together with it. -/
def isChanged (lastProps nextProps : Props) (k : String) : Bool :=
  decide (k ≠ CHILDREN) && nextProps.hasOwnProperty k
    && !strictEq (nextProps.get k) (lastProps.get k)
    && !(looseEqNull (nextProps.get k) && looseEqNull (lastProps.get k))

/-- The pairs of the payload: the deleted properties with `null`, then the
changed ones with their new value. -/
def diffPairs (lastProps nextProps : Props) : List (String × Val) :=
  (lastProps.keys.filter (isDeleted lastProps nextProps)).map (fun k => (k, Val.null))
    ++ (nextProps.keys.filter (isChanged lastProps nextProps)).map
        (fun k => (k, nextProps.get k))

/-- A list of pairs laid out flat, key then value. -/
def flatten (pairs : List (String × Val)) : List Val :=
  pairs.flatMap (fun p => [Val.str p.1, p.2])

/-- A dictionary without its `children` entry. -/
def withoutChildren (props : Props) : Props :=
  props.filter (fun p => decide (p.1 ≠ CHILDREN))

/-- The keys of a flat payload: the entries at even positions. -/
def payloadKeys : List Val → List Val
  | k :: _ :: rest => k :: payloadKeys rest
  | _ => []

/-- A property the diff leaves alone: the two values are strictly equal, or
both are nullish. -/
def unchanged (lastProps nextProps : Props) (k : String) : Bool :=
  strictEq (nextProps.get k) (lastProps.get k)
    || (looseEqNull (nextProps.get k) && looseEqNull (lastProps.get k))

/-- What a run of queueing steps adds to a payload. -/
def appendPairs (updatePayload : Payload) (pairs : List (String × Val)) : Payload :=
  if pairs = [] then updatePayload
  else some ((match updatePayload with | none => [] | some arr => arr) ++ flatten pairs)

/-! ## Errors, the store and effects -/

/-- A thrown value. -/
inductive JsError where
  | invariantViolation (message : String)
  | error (message : String)
  | typeError (message : String)
deriving DecidableEq, Repr

/-- An object of the heap as far as the host config reads or writes it: the
field `visible`, the array `children` (the display list, by object identity)
and every other field. -/
structure Obj where
  visible : Val
  children : List Nat
  fields : List (String × Val)
deriving DecidableEq, Repr

/-- The heap: every object, by identity. -/
abbrev Store := Nat → Obj

/-- A props argument that may be missing: `undefined`, `null` or an object. -/
inductive JsProps where
  | undefined
  | null
  | dict (props : Props)
deriving DecidableEq, Repr

/-- What a hook returns and what a listener is handed: a value, an update
payload, or a fresh empty object `{}`. -/
inductive JsArg where
  | val (v : Val)
  | payload (p : Payload)
  | emptyObject
deriving DecidableEq, Repr

/-- One call of a listener: the event name and the values handed over. -/
structure Notice where
  event : String
  value : List JsArg
deriving DecidableEq, Repr

/-- The world a hook runs in: the heap, and the record of the listener calls
made so far. -/
structure World where
  store : Store
  notified : List Notice

/-- Code that reads and writes the heap and may throw. -/
abbrev StoreOp (α : Type) := Store → Except JsError α × Store

/-- Code of the host config: the world goes in, an outcome and the world
afterwards come out; a throw keeps what was written before it. -/
def Eff (α : Type) := World → Except JsError α × World

/-- Return without touching the world. -/
def Eff.pure {α : Type} (a : α) : Eff α := fun w => (Except.ok a, w)

/-- Sequencing: a throw in the first part skips the second. -/
def Eff.bind {α β : Type} (x : Eff α) (f : α → Eff β) : Eff β := fun w =>
  match x w with
  | (Except.ok a, w') => f a w'
  | (Except.error e, w') => (Except.error e, w')

instance : Monad Eff where
  pure := Eff.pure
  bind := Eff.bind

/-- Run heap code inside the world. -/
def liftStore {α : Type} (op : StoreOp α) : Eff α := fun w =>
  ((op w.store).1, { w with store := (op w.store).2 })

/-- The statement `throw e`. -/
def raise {α : Type} (e : JsError) : Eff α := fun w => (Except.error e, w)

/-- The function `invariant(condition, format)` of fbjs: when the condition is
false it throws an Invariant Violation whose message is `format`. -/
def invariant (condition : Bool) (format : String) : Eff Unit :=
  if condition then Eff.pure () else raise (JsError.invariantViolation format)

/-! ## Listeners -/

/-- An entry of the events map that is called: it is handed the values, may
read and write the heap and may throw.  An object among the values is handed
over by identity and is written through the heap.  An array among them is handed
over by reference in the source and by value here, so the listener gives back
the values as it leaves them: an array it was handed may hold other elements
afterwards.  What the listener returns in the source is dropped. -/
abbrev Listener := List JsArg → StoreOp (List JsArg)

/-- The events map: `eventsMap[event]`, `none` when the entry is missing. -/
abbrev EventsMap := String → Option Listener

/-- The default `eventsMap = {}`. -/
def defaultEventsMap : EventsMap := fun _ => none

/-- The body of `callEvent(event, ...value)`: the listener of the event, if there
is one, is called with the values.  It gives back the values as the listener
leaves them, for the caller that reads one of them again. -/
def notify (eventsMap : EventsMap) (event : String) (value : List JsArg) :
    Eff (List JsArg) :=
  fun w =>
    match eventsMap event with
    | none => (Except.ok value, w)
    | some listener =>
      ((listener value w.store).1,
        { store := (listener value w.store).2, notified := w.notified ++ [⟨event, value⟩] })

/-- The function `callEvent(event, ...value)`. -/
def callEvent (eventsMap : EventsMap) (event : String) (value : List JsArg) : Eff Unit :=
  fun w =>
    ((notify eventsMap event value w).1.map (fun _ => ()), (notify eventsMap event value w).2)

/-- The array `result` of `prepareUpdate` after the listener was handed it: an
array holds what the listener left in it; `null` cannot be written to. -/
def payloadAfter (result : Payload) (left : List JsArg) : Payload :=
  match result, left with
  | some _, [JsArg.payload (some arr)] => some arr
  | _, _ => result

/-- A listener that never throws. -/
def Listener.NoThrow (l : Listener) : Prop :=
  ∀ value store e, (l value store).1 ≠ Except.error e

/-- A listener that does not mutate its arguments: the objects it is handed are
in the heap as they were, and the values are given back as they were handed. -/
def Listener.KeepsArguments (l : Listener) : Prop :=
  ∀ value store,
    (∀ id, JsArg.val (Val.ref id) ∈ value → (l value store).2 id = store id)
      ∧ (∀ left, (l value store).1 = Except.ok left → left = value)

/-- A listener that leaves the objects of the scene as they were. -/
def Listener.Keeps (scene : Nat → Prop) (l : Listener) : Prop :=
  ∀ value store id, scene id → (l value store).2 id = store id

/-- A listener that leaves the whole heap as it was. -/
def Listener.KeepsStore (l : Listener) : Prop := ∀ value store, (l value store).2 = store

/-- Every listener of the map is harmless to the scene: it does not throw, does
not mutate its arguments and leaves the objects of the scene as they were.  It
may write to any other object. -/
def EventsMap.Harmless (scene : Nat → Prop) (eventsMap : EventsMap) : Prop :=
  ∀ event l, eventsMap event = some l → l.NoThrow ∧ l.KeepsArguments ∧ l.Keeps scene

/-- No listener of the map writes to the heap (it may throw). -/
def EventsMap.KeepsStore (eventsMap : EventsMap) : Prop :=
  ∀ event l, eventsMap event = some l → l.KeepsStore

/-! ## The display list -/

/-- Write the fields of one object. -/
def Store.set (store : Store) (id : Nat) (obj : Obj) : Store :=
  fun i => if i = id then obj else store i

/-- The call `array.indexOf(x)`: the first position of `x`, or `-1`. -/
def indexOf (array : List Nat) (x : Nat) : Int :=
  if x ∈ array then (array.indexOf x : Int) else -1

/-- The call `array.splice(index, 0, x)`. -/
def splice (array : List Nat) (index : Nat) (x : Nat) : List Nat :=
  array.take index ++ x :: array.drop index

/-- Modelled from the spec: `parent.getChildIndex(child)` of the scene graph
library, the position of a child; it throws when the node is not a child. -/
def getChildIndex (parent child : Nat) : StoreOp Nat := fun store =>
  if indexOf (store parent).children child = -1 then
    (Except.error (JsError.error "The supplied DisplayObject must be a child of the caller"),
      store)
  else
    (Except.ok ((store parent).children.indexOf child), store)

/-- Modelled from the spec: `parent.setChildIndex(child, index)` of the scene
graph library moves a child by removing it from its current position and
splicing it in at the given index. -/
def setChildIndex (parent child index : Nat) : StoreOp Unit := fun store =>
  let obj := store parent
  let removed := obj.children.eraseIdx (obj.children.indexOf child)
  (Except.ok (), store.set parent { obj with children := splice removed index child })

/-- Modelled from the spec: `parent.addChildAt(child, index)` of the scene graph
library splices the child in at the given index. -/
def addChildAt (parent child index : Nat) : StoreOp Unit := fun store =>
  let obj := store parent
  (Except.ok (), store.set parent { obj with children := splice obj.children index child })

/-- A read of the heap. -/
def readStore {α : Type} (f : Store → α) : Eff α :=
  liftStore (fun store => (Except.ok (f store), store))

/-- The function `insertBefore(parent, child, beforeChild)`. -/
def insertBefore (parent child beforeChild : Nat) : Eff Unit := do
  invariant (child != beforeChild) "react-pixi: PixiFiber cannot insert node before itself"
  let childExists ← readStore (fun store => indexOf (store parent).children child != -1)
  let index ← liftStore (getChildIndex parent beforeChild)
  if childExists then
    liftStore (setChildIndex parent child index)
  else
    liftStore (addChildAt parent child index)

/-! ## What the host config calls but does not define -/

/-- The code the host config calls and this file does not define: the element
factory and `reactApplyProps` of the repository, the display-list methods of the
scene graph library, the mount callbacks of a component, the timers, the clock
and the number comparison of the language.  Each is any heap code at all. -/
structure Externals where
  /-- The call `createElement(type, props, root)`. -/
  createElement : Val → JsProps → Val → StoreOp Val
  /-- Whether `parent.addChild` is truthy. -/
  hasAddChild : Store → Nat → Bool
  /-- The call `parent.addChild(child)`. -/
  addChild : Nat → Nat → StoreOp Unit
  /-- The callback `child.didMount`, when it is a function; called with the
  instance and the parent. -/
  didMount : Store → Nat → Option (Nat → Nat → StoreOp Unit)
  /-- The callback `child.willUnmount`, when it is a function. -/
  willUnmount : Store → Nat → Option (Nat → Nat → StoreOp Unit)
  /-- The call `parent.removeChild(child)`. -/
  removeChild : Nat → Nat → StoreOp Unit
  /-- The call `child.destroy()`. -/
  destroy : Nat → StoreOp Unit
  /-- The call `instance.reactApplyProps(oldProps, newProps)`. -/
  reactApplyProps : Nat → Props → Props → StoreOp Unit
  /-- The call `setTimeout(...args)`. -/
  setTimeout : List Val → StoreOp Val
  /-- The call `clearTimeout(...args)`. -/
  clearTimeout : List Val → StoreOp Val
  /-- The call `performanceNow()`. -/
  performanceNow : StoreOp Val
  /-- The comparison `v > 0`. -/
  gtZero : Val → Bool

/-- The function `appendChild(parent, child)`. -/
def appendChild (ext : Externals) (parent child : Nat) : Eff Unit := do
  let hasAddChild ← readStore (fun store => ext.hasAddChild store parent)
  if hasAddChild then
    liftStore (ext.addChild parent child)
    let didMount ← readStore (fun store => ext.didMount store child)
    match didMount with
    | some callback => liftStore (callback child parent)
    | none => pure ()
  else
    pure ()

/-- The function `removeChild(parent, child)`. -/
def removeChild (ext : Externals) (parent child : Nat) : Eff Unit := do
  let willUnmount ← readStore (fun store => ext.willUnmount store child)
  match willUnmount with
  | some callback => liftStore (callback child parent)
  | none => pure ()
  liftStore (ext.removeChild parent child)
  liftStore (ext.destroy child)

/-- The read `props[key]` on a props argument that is an object. -/
def JsProps.read (props : JsProps) (key : String) : Eff Val :=
  match props with
  | JsProps.dict d => pure (d.get key)
  | _ => raise (JsError.typeError ("Cannot read property " ++ key))

/-- The assignment `instance.visible = value`. -/
def setVisible (inst : Nat) (value : Val) : StoreOp Unit := fun store =>
  (Except.ok (), store.set inst { store inst with visible := value })

/-! ## HostConfig -/

/-- The message of the invariant of `createTextInstance`. -/
def textNodeMessage : String :=
  "react-pixi: PixiFiber does not support text nodes as children of a Pixi component. " ++
    "To pass a string value to your component, use a property other than children. " ++
    "If you wish to display some text, you can use &lt;Text text=\x7bstring\x7d /&gt; instead."

namespace HostConfig

/-- The hook `getRootHostContext(rootContainerInstance)`. -/
def getRootHostContext (eventsMap : EventsMap) (rootContainerInstance : Val) : Eff Val := do
  callEvent eventsMap "getRootHostContext" [JsArg.val rootContainerInstance]
  return rootContainerInstance

/-- The hook `getChildHostContext()`. -/
def getChildHostContext (eventsMap : EventsMap) : Eff JsArg := do
  callEvent eventsMap "getChildHostContext" [JsArg.emptyObject]
  return JsArg.emptyObject

/-- The hook `getChildHostContextForEventComponent(parentHostContext)`. -/
def getChildHostContextForEventComponent (eventsMap : EventsMap) (parentHostContext : Val) :
    Eff Val := do
  callEvent eventsMap "getChildHostContextForEventComponent" [JsArg.val parentHostContext]
  return parentHostContext

/-- The hook `getPublicInstance(instance)`. -/
def getPublicInstance (eventsMap : EventsMap) (inst : Val) : Eff Val := do
  callEvent eventsMap "getPublicInstance" [JsArg.val inst]
  return inst

/-- The hook `prepareForCommit()`. -/
def prepareForCommit (eventsMap : EventsMap) : Eff Unit :=
  callEvent eventsMap "prepareForCommit" []

/-- The hook `resetAfterCommit()`. -/
def resetAfterCommit (eventsMap : EventsMap) : Eff Unit :=
  callEvent eventsMap "resetAfterCommit" []

/-- The hook `createInstance(...args)`. -/
def createInstance (ext : Externals) (eventsMap : EventsMap) (type : Val) (props : JsProps)
    (root : Val) : Eff Val := do
  let result ← liftStore (ext.createElement type props root)
  callEvent eventsMap "createInstance" [JsArg.val result]
  return result

/-- The hook `hideInstance(instance)`. -/
def hideInstance (eventsMap : EventsMap) (inst : Nat) : Eff Unit := do
  liftStore (setVisible inst (Val.bool false))
  callEvent eventsMap "hideInstance" [JsArg.val (Val.bool false)]

/-- The hook `unhideInstance(instance, props)`. -/
def unhideInstance (eventsMap : EventsMap) (inst : Nat) (props : JsProps) : Eff Unit := do
  let visible :=
    match props with
    | JsProps.undefined => Val.bool true
    | JsProps.null => Val.bool true
    | JsProps.dict d => if d.hasOwnProperty "visible" then d.get "visible" else Val.bool true
  liftStore (setVisible inst visible)
  callEvent eventsMap "unhideInstance" [JsArg.val visible]

/-- The hook `appendInitialChild(...args)`. -/
def appendInitialChild (ext : Externals) (eventsMap : EventsMap) (parent child : Nat) :
    Eff Unit := do
  let result ← ReactPixi.appendChild ext parent child
  callEvent eventsMap "appendInitialChild" [JsArg.val Val.undefined]
  return result

/-- The hook `finalizeInitialChildren(wordElement, type, props)`. -/
def finalizeInitialChildren (eventsMap : EventsMap) (_wordElement _type : Val)
    (_props : JsProps) : Eff Bool := do
  callEvent eventsMap "finalizeInitialChildren" [JsArg.val (Val.bool false)]
  return false

/-- The hook `prepareUpdate(pixiElement, type, oldProps, newProps, rootContainerInstance,
hostContext)`.  `callEvent('prepareUpdate', result)` hands the listener the array
`result` itself, so `return result` returns the array as the listener left it. -/
def prepareUpdate (eventsMap : EventsMap) (pixiElement type : Val) (oldProps newProps : Props)
    (rootContainerInstance _hostContext : Val) : Eff Payload := do
  let result := diffProperties pixiElement type oldProps newProps rootContainerInstance
  let left ← notify eventsMap "prepareUpdate" [JsArg.payload result]
  return payloadAfter result left

/-- The hook `shouldSetTextContent(type, props)`. -/
def shouldSetTextContent (eventsMap : EventsMap) (_type : Val) (_props : JsProps) :
    Eff Bool := do
  callEvent eventsMap "shouldSetTextContent" [JsArg.val (Val.bool false)]
  return false

/-- The hook `shouldDeprioritizeSubtree(type, props)`. -/
def shouldDeprioritizeSubtree (ext : Externals) (eventsMap : EventsMap) (_type : Val)
    (props : JsProps) : Eff Bool := do
  let alpha ← props.read "alpha"
  let isAlphaVisible := decide (alpha = Val.undefined) || ext.gtZero alpha
  let renderable ← props.read "renderable"
  let isRenderable := decide (renderable = Val.undefined) || strictEq renderable (Val.bool true)
  let visible ← props.read "visible"
  let isVisible := decide (visible = Val.undefined) || strictEq visible (Val.bool true)
  let result := !(isAlphaVisible && isRenderable && isVisible)
  callEvent eventsMap "shouldDeprioritizeSubtree" [JsArg.val (Val.bool result)]
  return result

/-- The hook `createTextInstance(text, rootContainerInstance, internalInstanceHandler)`. -/
def createTextInstance (eventsMap : EventsMap) (_text _rootContainerInstance
    _internalInstanceHandler : Val) : Eff Unit := do
  invariant false textNodeMessage
  callEvent eventsMap "createTextInstance" []

/-- The hook `mountEventComponent()`. -/
def mountEventComponent (eventsMap : EventsMap) : Eff Unit :=
  callEvent eventsMap "mountEventComponent" []

/-- The hook `updateEventComponent()`. -/
def updateEventComponent (eventsMap : EventsMap) : Eff Unit :=
  callEvent eventsMap "updateEventComponent" []

/-- The hook `handleEventTarget()`. -/
def handleEventTarget (eventsMap : EventsMap) : Eff Unit :=
  callEvent eventsMap "handleEventTarget" []

/-- The hook `scheduleTimeout(...args)`. -/
def scheduleTimeout (ext : Externals) (eventsMap : EventsMap) (args : List Val) : Eff Val := do
  callEvent eventsMap "scheduleTimeout" []
  liftStore (ext.setTimeout args)

/-- The hook `cancelTimeout(...args)`. -/
def cancelTimeout (ext : Externals) (eventsMap : EventsMap) (args : List Val) : Eff Val := do
  callEvent eventsMap "cancelTimeout" []
  liftStore (ext.clearTimeout args)

/-- The entry `now: performanceNow`. -/
def now (ext : Externals) : Eff Val := liftStore ext.performanceNow

/-- The hook `appendChild(...args)`. -/
def appendChild (ext : Externals) (eventsMap : EventsMap) (parent child : Nat) : Eff Unit := do
  callEvent eventsMap "appendChild" [JsArg.val (Val.ref parent), JsArg.val (Val.ref child)]
  ReactPixi.appendChild ext parent child

/-- The hook `appendChildToContainer(...args)`. -/
def appendChildToContainer (ext : Externals) (eventsMap : EventsMap) (parent child : Nat) :
    Eff Unit := do
  callEvent eventsMap "appendChildToContainer"
    [JsArg.val (Val.ref parent), JsArg.val (Val.ref child)]
  ReactPixi.appendChild ext parent child

/-- The hook `removeChild(...args)`. -/
def removeChild (ext : Externals) (eventsMap : EventsMap) (parent child : Nat) : Eff Unit := do
  callEvent eventsMap "removeChild" [JsArg.val (Val.ref parent), JsArg.val (Val.ref child)]
  ReactPixi.removeChild ext parent child

/-- The hook `removeChildFromContainer(...args)`. -/
def removeChildFromContainer (ext : Externals) (eventsMap : EventsMap) (parent child : Nat) :
    Eff Unit := do
  callEvent eventsMap "removeChildFromContainer"
    [JsArg.val (Val.ref parent), JsArg.val (Val.ref child)]
  ReactPixi.removeChild ext parent child

/-- The hook `insertBefore(...args)`. -/
def insertBefore (eventsMap : EventsMap) (parent child beforeChild : Nat) : Eff Unit := do
  callEvent eventsMap "insertBefore"
    [JsArg.val (Val.ref parent), JsArg.val (Val.ref child), JsArg.val (Val.ref beforeChild)]
  ReactPixi.insertBefore parent child beforeChild

/-- The hook `insertInContainerBefore(...args)`. -/
def insertInContainerBefore (eventsMap : EventsMap) (parent child beforeChild : Nat) :
    Eff Unit := do
  callEvent eventsMap "insertInContainerBefore"
    [JsArg.val (Val.ref parent), JsArg.val (Val.ref child), JsArg.val (Val.ref beforeChild)]
  ReactPixi.insertBefore parent child beforeChild

/-- The hook `commitUpdate(instance, updatePayload, type, oldProps, newProps)`. -/
def commitUpdate (ext : Externals) (eventsMap : EventsMap) (inst : Nat)
    (_updatePayload : Payload) (_type : Val) (oldProps newProps : Props) : Eff Unit := do
  liftStore (ext.reactApplyProps inst oldProps newProps)
  callEvent eventsMap "commitUpdate" []

/-- The hook `commitMount(instance, updatePayload, type, oldProps, newProps)`. -/
def commitMount (eventsMap : EventsMap) : Eff Unit :=
  callEvent eventsMap "commitMount" []

/-- The hook `commitTextUpdate(textInstance, oldText, newText)`. -/
def commitTextUpdate (eventsMap : EventsMap) : Eff Unit :=
  callEvent eventsMap "commitTextUpdate" []

/-- The hook `resetTextContent(pixiElement)`. -/
def resetTextContent (eventsMap : EventsMap) (pixiElement : Val) : Eff Unit :=
  callEvent eventsMap "resetTextContent" [JsArg.val pixiElement]

end HostConfig

/-- One call of an entry of the object that `HostConfig(eventsMap)` returns. -/
inductive HookCall where
  | getRootHostContext (rootContainerInstance : Val)
  | getChildHostContext
  | getChildHostContextForEventComponent (parentHostContext : Val)
  | getPublicInstance (inst : Val)
  | prepareForCommit
  | resetAfterCommit
  | createInstance (type : Val) (props : JsProps) (root : Val)
  | hideInstance (inst : Nat)
  | unhideInstance (inst : Nat) (props : JsProps)
  | appendInitialChild (parent child : Nat)
  | finalizeInitialChildren (wordElement type : Val) (props : JsProps)
  | prepareUpdate (pixiElement type : Val) (oldProps newProps : Props)
      (rootContainerInstance hostContext : Val)
  | shouldSetTextContent (type : Val) (props : JsProps)
  | shouldDeprioritizeSubtree (type : Val) (props : JsProps)
  | createTextInstance (text rootContainerInstance internalInstanceHandler : Val)
  | mountEventComponent
  | updateEventComponent
  | handleEventTarget
  | scheduleTimeout (args : List Val)
  | cancelTimeout (args : List Val)
  | now
  | appendChild (parent child : Nat)
  | appendChildToContainer (parent child : Nat)
  | removeChild (parent child : Nat)
  | removeChildFromContainer (parent child : Nat)
  | insertBefore (parent child beforeChild : Nat)
  | insertInContainerBefore (parent child beforeChild : Nat)
  | commitUpdate (inst : Nat) (updatePayload : Payload) (type : Val) (oldProps newProps : Props)
  | commitMount
  | commitTextUpdate
  | resetTextContent (pixiElement : Val)

/-- The result of a hook as a `JsArg`. -/
def Eff.map {α β : Type} (f : α → β) (x : Eff α) : Eff β := do
  let a ← x
  return f a

/-- The object `HostConfig(eventsMap)`: each hook, with its result as a `JsArg`
(`undefined` for a hook that returns nothing). -/
def HostConfig (ext : Externals) (eventsMap : EventsMap) : HookCall → Eff JsArg
  | .getRootHostContext r => Eff.map JsArg.val (HostConfig.getRootHostContext eventsMap r)
  | .getChildHostContext => HostConfig.getChildHostContext eventsMap
  | .getChildHostContextForEventComponent c =>
    Eff.map JsArg.val (HostConfig.getChildHostContextForEventComponent eventsMap c)
  | .getPublicInstance i => Eff.map JsArg.val (HostConfig.getPublicInstance eventsMap i)
  | .prepareForCommit =>
    Eff.map (fun _ => JsArg.val Val.undefined) (HostConfig.prepareForCommit eventsMap)
  | .resetAfterCommit =>
    Eff.map (fun _ => JsArg.val Val.undefined) (HostConfig.resetAfterCommit eventsMap)
  | .createInstance t p r => Eff.map JsArg.val (HostConfig.createInstance ext eventsMap t p r)
  | .hideInstance i =>
    Eff.map (fun _ => JsArg.val Val.undefined) (HostConfig.hideInstance eventsMap i)
  | .unhideInstance i p =>
    Eff.map (fun _ => JsArg.val Val.undefined) (HostConfig.unhideInstance eventsMap i p)
  | .appendInitialChild p c =>
    Eff.map (fun _ => JsArg.val Val.undefined) (HostConfig.appendInitialChild ext eventsMap p c)
  | .finalizeInitialChildren e t p =>
    Eff.map (fun b => JsArg.val (Val.bool b)) (HostConfig.finalizeInitialChildren eventsMap e t p)
  | .prepareUpdate e t o n r c =>
    Eff.map JsArg.payload (HostConfig.prepareUpdate eventsMap e t o n r c)
  | .shouldSetTextContent t p =>
    Eff.map (fun b => JsArg.val (Val.bool b)) (HostConfig.shouldSetTextContent eventsMap t p)
  | .shouldDeprioritizeSubtree t p =>
    Eff.map (fun b => JsArg.val (Val.bool b))
      (HostConfig.shouldDeprioritizeSubtree ext eventsMap t p)
  | .createTextInstance t r h =>
    Eff.map (fun _ => JsArg.val Val.undefined) (HostConfig.createTextInstance eventsMap t r h)
  | .mountEventComponent =>
    Eff.map (fun _ => JsArg.val Val.undefined) (HostConfig.mountEventComponent eventsMap)
  | .updateEventComponent =>
    Eff.map (fun _ => JsArg.val Val.undefined) (HostConfig.updateEventComponent eventsMap)
  | .handleEventTarget =>
    Eff.map (fun _ => JsArg.val Val.undefined) (HostConfig.handleEventTarget eventsMap)
  | .scheduleTimeout args => Eff.map JsArg.val (HostConfig.scheduleTimeout ext eventsMap args)
  | .cancelTimeout args => Eff.map JsArg.val (HostConfig.cancelTimeout ext eventsMap args)
  | .now => Eff.map JsArg.val (HostConfig.now ext)
  | .appendChild p c =>
    Eff.map (fun _ => JsArg.val Val.undefined) (HostConfig.appendChild ext eventsMap p c)
  | .appendChildToContainer p c =>
    Eff.map (fun _ => JsArg.val Val.undefined)
      (HostConfig.appendChildToContainer ext eventsMap p c)
  | .removeChild p c =>
    Eff.map (fun _ => JsArg.val Val.undefined) (HostConfig.removeChild ext eventsMap p c)
  | .removeChildFromContainer p c =>
    Eff.map (fun _ => JsArg.val Val.undefined)
      (HostConfig.removeChildFromContainer ext eventsMap p c)
  | .insertBefore p c b =>
    Eff.map (fun _ => JsArg.val Val.undefined) (HostConfig.insertBefore eventsMap p c b)
  | .insertInContainerBefore p c b =>
    Eff.map (fun _ => JsArg.val Val.undefined)
      (HostConfig.insertInContainerBefore eventsMap p c b)
  | .commitUpdate i u t o n =>
    Eff.map (fun _ => JsArg.val Val.undefined) (HostConfig.commitUpdate ext eventsMap i u t o n)
  | .commitMount =>
    Eff.map (fun _ => JsArg.val Val.undefined) (HostConfig.commitMount eventsMap)
  | .commitTextUpdate =>
    Eff.map (fun _ => JsArg.val Val.undefined) (HostConfig.commitTextUpdate eventsMap)
  | .resetTextContent e =>
    Eff.map (fun _ => JsArg.val Val.undefined) (HostConfig.resetTextContent eventsMap e)

/-! ## The visibility the specification words -/

/-- The value `unhideInstance` is said to give `instance.visible`: `props.visible`
when `props` is neither `null` nor `undefined` and owns a `visible` key, and
`true` otherwise. -/
def specVisible : JsProps → Val
  | JsProps.dict d => if d.hasOwnProperty "visible" then d.get "visible" else Val.bool true
  | _ => Val.bool true

/-! ## Concrete inputs -/

/-- A heap in which object `0` is a visible container with the children `1`,
`2` and `3`, in that order, and every other object is visible and childless. -/
def sampleStore : Store := fun id =>
  if id = 0 then
    { visible := Val.bool true, children := [1, 2, 3], fields := [("alpha", Val.num 1)] }
  else { visible := Val.bool true, children := [], fields := [] }

/-- The heap `sampleStore` before any listener was called. -/
def sampleWorld : World := { store := sampleStore, notified := [] }

/-- Externals that do nothing and return `undefined`. -/
def inertExternals : Externals where
  createElement := fun _ _ _ store => (Except.ok Val.undefined, store)
  hasAddChild := fun _ _ => false
  addChild := fun _ _ store => (Except.ok (), store)
  didMount := fun _ _ => none
  willUnmount := fun _ _ => none
  removeChild := fun _ _ store => (Except.ok (), store)
  destroy := fun _ store => (Except.ok (), store)
  reactApplyProps := fun _ _ _ store => (Except.ok (), store)
  setTimeout := fun _ store => (Except.ok Val.undefined, store)
  clearTimeout := fun _ store => (Except.ok Val.undefined, store)
  performanceNow := fun store => (Except.ok (Val.num 0), store)
  gtZero := fun _ => false

/-- The objects `0` to `9`: the scene of the concrete inputs. -/
def sampleScene : Nat → Prop := fun id => id < 10

/-- An events map whose one listener, on `hideInstance`, keeps count of its calls
in a field of object `100`, which is no object of `sampleScene`, unless that
object is among the values it is handed. -/
def countingMap : EventsMap := fun event =>
  if event = "hideInstance" then
    some (fun value store =>
      (Except.ok value,
        if JsArg.val (Val.ref 100) ∈ value then store
        else store.set 100
          { store 100 with fields := ("calls", Val.num 1) :: (store 100).fields }))
  else none

/-- An events map whose one listener, on `prepareUpdate`, pushes `'y', 1` onto an
array it is handed. -/
def pushingMap : EventsMap := fun event =>
  if event = "prepareUpdate" then
    some (fun value store =>
      (Except.ok (value.map (fun a =>
          match a with
          | JsArg.payload (some arr) => JsArg.payload (some (arr ++ [Val.str "y", Val.num 1]))
          | other => other)),
        store))
  else none

/-- An events map whose one listener, on `hideInstance`, throws. -/
def throwingMap : EventsMap := fun event =>
  if event = "hideInstance" then
    some (fun _ store => (Except.error (JsError.error "listener"), store))
  else none

/-- An events map whose one listener, on `hideInstance`, shows object `0` again
unless object `0` is among the values it is handed. -/
def showAgainMap : EventsMap := fun event =>
  if event = "hideInstance" then
    some (fun value store =>
      (Except.ok value,
        if JsArg.val (Val.ref 0) ∈ value then store
        else store.set 0 { store 0 with visible := Val.bool true }))
  else none

/-! ## The scene -/

/-- Heaps that hold the same objects of the scene. -/
def Store.AgreeOn (scene : Nat → Prop) (s s' : Store) : Prop := ∀ id, scene id → s id = s' id

/-- Heap code that lives in the scene: what it returns and what it leaves in
the scene depend on the objects of the scene only. -/
def WithinScene {α : Type} (scene : Nat → Prop) (op : StoreOp α) : Prop :=
  ∀ s s', Store.AgreeOn scene s s' →
    (op s).1 = (op s').1 ∧ Store.AgreeOn scene (op s).2 (op s').2

/-- The code the hooks call lives in the scene, when it is called on objects of
the scene. -/
structure Externals.Within (scene : Nat → Prop) (ext : Externals) : Prop where
  createElement : ∀ type props root, WithinScene scene (ext.createElement type props root)
  hasAddChild : ∀ s s' parent, scene parent → Store.AgreeOn scene s s' →
    ext.hasAddChild s parent = ext.hasAddChild s' parent
  addChild : ∀ parent child, scene parent → scene child →
    WithinScene scene (ext.addChild parent child)
  didMount : ∀ s s' child, scene child → Store.AgreeOn scene s s' →
    ext.didMount s child = ext.didMount s' child
  didMountCall : ∀ s child callback parent, scene child → scene parent →
    ext.didMount s child = some callback → WithinScene scene (callback child parent)
  willUnmount : ∀ s s' child, scene child → Store.AgreeOn scene s s' →
    ext.willUnmount s child = ext.willUnmount s' child
  willUnmountCall : ∀ s child callback parent, scene child → scene parent →
    ext.willUnmount s child = some callback → WithinScene scene (callback child parent)
  removeChild : ∀ parent child, scene parent → scene child →
    WithinScene scene (ext.removeChild parent child)
  destroy : ∀ child, scene child → WithinScene scene (ext.destroy child)
  reactApplyProps : ∀ inst oldProps newProps, scene inst →
    WithinScene scene (ext.reactApplyProps inst oldProps newProps)
  setTimeout : ∀ args, WithinScene scene (ext.setTimeout args)
  clearTimeout : ∀ args, WithinScene scene (ext.clearTimeout args)
  performanceNow : WithinScene scene ext.performanceNow

/-- The objects a hook is handed by identity. -/
def HookCall.objects : HookCall → List Nat
  | .hideInstance inst => [inst]
  | .unhideInstance inst _ => [inst]
  | .appendInitialChild parent child => [parent, child]
  | .appendChild parent child => [parent, child]
  | .appendChildToContainer parent child => [parent, child]
  | .removeChild parent child => [parent, child]
  | .removeChildFromContainer parent child => [parent, child]
  | .insertBefore parent child beforeChild => [parent, child, beforeChild]
  | .insertInContainerBefore parent child beforeChild => [parent, child, beforeChild]
  | .commitUpdate inst _ _ _ _ => [inst]
  | _ => []

/-! ## Comparing two runs -/

/-- Two pieces of code agree on the scene: from worlds whose heaps hold the same
objects of the scene they end with the same outcome and with heaps that hold the
same objects of the scene (the records of listener calls may differ). -/
structure Eff.Agree {α : Type} (scene : Nat → Prop) (x y : Eff α) : Prop where
  same : ∀ w w' : World, Store.AgreeOn scene w.store w'.store →
    (x w).1 = (y w').1 ∧ Store.AgreeOn scene (x w).2.store (y w').2.store

/-- Code that calls no listener. -/
structure Eff.Silent {α : Type} (x : Eff α) : Prop where
  same : ∀ w : World, (x w).2.notified = w.notified

/-! ## Theorems -/

/-! ### Dictionaries -/

theorem Props.hasOwnProperty_iff_mem_keys (props : Props) (k : String) :
    props.hasOwnProperty k = true ↔ k ∈ props.keys := by
  induction props with
  | nil => simp [Props.hasOwnProperty, Props.keys]
  | cons p rest ih =>
    obtain ⟨k', v⟩ := p
    simp only [Props.hasOwnProperty, Props.keys, List.lookup, List.map_cons, List.mem_cons] at ih ⊢
    by_cases h : k = k'
    · subst h; simp
    · have h' : (k == k') = false := by simpa using h
      simp [h', h, ih]

theorem lookup_withoutChildren (props : Props) (k : String) (hk : k ≠ CHILDREN) :
    (withoutChildren props).lookup k = props.lookup k := by
  induction props with
  | nil => rfl
  | cons p rest ih =>
    obtain ⟨k', v⟩ := p
    unfold withoutChildren at ih ⊢
    by_cases h' : k' = CHILDREN
    · have hne : (k == k') = false := by
        simpa using (fun h : k = k' => hk (h.trans h'))
      rw [List.filter_cons]
      simp only [h', ne_eq, not_true_eq_false, decide_False, Bool.false_eq_true, if_false]
      rw [ih]
      simp only [List.lookup, ← h', hne]
    · have hd : decide ((k', v).1 ≠ CHILDREN) = true := by simpa using h'
      rw [List.filter_cons, if_pos hd]
      simp only [List.lookup]
      rw [ih]

/-! ### The loops of diffProperties -/

theorem deletedStep_eq (lastProps nextProps : Props) (p : Payload) (k : String) :
    deletedStep lastProps nextProps p k
      = if isDeleted lastProps nextProps k then queue p k Val.null else p := by
  unfold deletedStep isDeleted
  by_cases h1 : nextProps.hasOwnProperty k = true <;>
  by_cases h2 : lastProps.hasOwnProperty k = true <;>
  by_cases h3 : looseEqNull (lastProps.get k) = true <;>
  by_cases h4 : k = CHILDREN <;> simp [h1, h2, h3, h4]

theorem changedStep_eq (lastProps nextProps : Props) (p : Payload) (k : String) :
    changedStep lastProps nextProps p k
      = if isChanged lastProps nextProps k then queue p k (nextProps.get k) else p := by
  unfold changedStep isChanged
  by_cases h1 : nextProps.hasOwnProperty k = true <;>
  by_cases h2 : strictEq (nextProps.get k) (lastProps.get k) = true <;>
  by_cases h3 : looseEqNull (nextProps.get k) = true <;>
  by_cases h5 : looseEqNull (lastProps.get k) = true <;>
  by_cases h4 : k = CHILDREN <;> simp [h1, h2, h3, h4, h5]

theorem appendPairs_cons (p : Payload) (k : String) (v : Val) (rest : List (String × Val)) :
    appendPairs (queue p k v) rest = appendPairs p ((k, v) :: rest) := by
  unfold appendPairs queue flatten
  by_cases h : rest = []
  · subst h; cases p <;> simp
  · cases p <;> simp [h]

theorem foldl_queue (c : String → Bool) (f : String → Val) (ks : List String) (p : Payload) :
    ks.foldl (fun p k => if c k then queue p k (f k) else p) p
      = appendPairs p ((ks.filter c).map (fun k => (k, f k))) := by
  induction ks generalizing p with
  | nil => simp [appendPairs]
  | cons k rest ih =>
    simp only [List.foldl_cons, ih]
    by_cases h : c k = true
    · simp [h, List.filter_cons, appendPairs_cons]
    · simp [h, List.filter_cons]

theorem appendPairs_append (p : Payload) (xs ys : List (String × Val)) :
    appendPairs (appendPairs p xs) ys = appendPairs p (xs ++ ys) := by
  unfold appendPairs flatten
  by_cases hx : xs = [] <;> by_cases hy : ys = [] <;> cases p <;> simp [hx, hy]

/-- The two loops compute the pairs of the specification. -/
theorem diffProperties_eq (a t : Val) (lastProps nextProps : Props) (r : Val) :
    diffProperties a t lastProps nextProps r
      = if diffPairs lastProps nextProps = [] then none
        else some (flatten (diffPairs lastProps nextProps)) := by
  have h1 : deletedStep lastProps nextProps
      = fun p k => if isDeleted lastProps nextProps k then queue p k Val.null else p := by
    funext p k; exact deletedStep_eq _ _ _ _
  have h2 : changedStep lastProps nextProps
      = fun p k => if isChanged lastProps nextProps k then queue p k (nextProps.get k) else p := by
    funext p k; exact changedStep_eq _ _ _ _
  unfold diffProperties
  simp only [h1, h2]
  rw [foldl_queue (isDeleted lastProps nextProps) (fun _ => Val.null),
    foldl_queue (isChanged lastProps nextProps) (fun k => nextProps.get k), appendPairs_append]
  simp [appendPairs, diffPairs]

/-! ### Facts about the pairs -/

theorem isDeleted_iff (lastProps nextProps : Props) (k : String) :
    isDeleted lastProps nextProps k = true ↔
      k ≠ CHILDREN ∧ lastProps.hasOwnProperty k = true ∧ looseEqNull (lastProps.get k) = false
        ∧ nextProps.hasOwnProperty k = false := by
  simp [isDeleted, and_assoc]

theorem isChanged_iff (lastProps nextProps : Props) (k : String) :
    isChanged lastProps nextProps k = true ↔
      k ≠ CHILDREN ∧ nextProps.hasOwnProperty k = true
        ∧ strictEq (nextProps.get k) (lastProps.get k) = false
        ∧ ¬ (looseEqNull (nextProps.get k) = true ∧ looseEqNull (lastProps.get k) = true) := by
  cases h1 : looseEqNull (nextProps.get k) <;> cases h2 : looseEqNull (lastProps.get k) <;>
    simp [isChanged, and_assoc, h1, h2]

theorem diffPairs_eq_nil_iff (lastProps nextProps : Props) :
    diffPairs lastProps nextProps = [] ↔
      (¬ ∃ k, isDeleted lastProps nextProps k = true)
        ∧ (¬ ∃ k, isChanged lastProps nextProps k = true) := by
  unfold diffPairs
  rw [List.append_eq_nil, List.map_eq_nil_iff, List.map_eq_nil_iff, List.filter_eq_nil_iff,
    List.filter_eq_nil_iff]
  constructor
  · rintro ⟨h1, h2⟩
    refine ⟨?_, ?_⟩
    · rintro ⟨k, hk⟩
      have hown := ((isDeleted_iff _ _ _).1 hk).2.1
      exact h1 k ((Props.hasOwnProperty_iff_mem_keys _ _).1 hown) hk
    · rintro ⟨k, hk⟩
      have hown := ((isChanged_iff _ _ _).1 hk).2.1
      exact h2 k ((Props.hasOwnProperty_iff_mem_keys _ _).1 hown) hk
  · rintro ⟨h1, h2⟩
    exact ⟨fun k _ hk => h1 ⟨k, hk⟩, fun k _ hk => h2 ⟨k, hk⟩⟩

theorem flatten_eq_nil_iff (pairs : List (String × Val)) : flatten pairs = [] ↔ pairs = [] := by
  cases pairs <;> simp [flatten]

theorem flatten_length (pairs : List (String × Val)) :
    (flatten pairs).length = 2 * pairs.length := by
  induction pairs with
  | nil => rfl
  | cons p rest ih =>
    simp only [flatten, List.flatMap_cons, List.length_append, List.length_cons,
      List.length_nil] at ih ⊢
    omega

theorem payloadKeys_flatten (pairs : List (String × Val)) :
    payloadKeys (flatten pairs) = pairs.map (fun p => Val.str p.1) := by
  induction pairs with
  | nil => rfl
  | cons p rest ih =>
    have hcons : flatten (p :: rest) = Val.str p.1 :: p.2 :: flatten rest := by
      simp [flatten, List.flatMap_cons]
    rw [hcons, payloadKeys, ih, List.map_cons]

theorem mem_diffPairs (lastProps nextProps : Props) (p : String × Val)
    (h : p ∈ diffPairs lastProps nextProps) :
    isDeleted lastProps nextProps p.1 = true ∨ isChanged lastProps nextProps p.1 = true := by
  unfold diffPairs at h
  rw [List.mem_append] at h
  rcases h with h | h
  · obtain ⟨k, hk, rfl⟩ := List.mem_map.1 h
    exact Or.inl (List.mem_filter.1 hk).2
  · obtain ⟨k, hk, rfl⟩ := List.mem_map.1 h
    exact Or.inr (List.mem_filter.1 hk).2

theorem get_of_not_hasOwnProperty (props : Props) (k : String)
    (h : props.hasOwnProperty k = false) : props.get k = Val.undefined := by
  unfold Props.hasOwnProperty at h
  unfold Props.get
  cases hl : props.lookup k with
  | none => rfl
  | some v => rw [hl] at h; simp at h

theorem strictEq_undefined_left (v : Val) (h : looseEqNull v = false) :
    strictEq Val.undefined v = false := by
  cases v <;> simp_all [strictEq, looseEqNull]

theorem unchanged_of_mem_diffPairs (lastProps nextProps : Props) (p : String × Val)
    (h : p ∈ diffPairs lastProps nextProps) : unchanged lastProps nextProps p.1 = false := by
  rcases mem_diffPairs _ _ _ h with hd | hc
  · obtain ⟨_, _, hnull, hnext⟩ := (isDeleted_iff _ _ _).1 hd
    have hget := get_of_not_hasOwnProperty _ _ hnext
    simp [unchanged, hget, strictEq_undefined_left _ hnull, hnull]
  · obtain ⟨_, _, hne, hnn⟩ := (isChanged_iff _ _ _).1 hc
    simp only [unchanged, hne, Bool.false_or, Bool.and_eq_false_iff]
    by_cases h1 : looseEqNull (nextProps.get p.1) = true
    · right
      have : ¬ looseEqNull (lastProps.get p.1) = true := fun h2 => hnn ⟨h1, h2⟩
      simpa using this
    · left; simpa using h1

theorem diffPairs_keys_nodup (lastProps nextProps : Props) (hl : lastProps.WellFormed)
    (hn : nextProps.WellFormed) : ((diffPairs lastProps nextProps).map Prod.fst).Nodup := by
  unfold diffPairs
  rw [List.map_append, List.map_map, List.map_map]
  have e1 : (Prod.fst ∘ fun k : String => (k, Val.null)) = id := rfl
  have e2 : (Prod.fst ∘ fun k : String => (k, nextProps.get k)) = id := rfl
  rw [e1, e2, List.map_id, List.map_id, List.nodup_append]
  refine ⟨hl.filter _, hn.filter _, ?_⟩
  intro k h1 h2
  have hd := ((isDeleted_iff _ _ _).1 (List.mem_filter.1 h1).2).2.2.2
  have hc := ((isChanged_iff _ _ _).1 (List.mem_filter.1 h2).2).2.1
  rw [hd] at hc
  exact Bool.false_ne_true hc

theorem isDeleted_withoutChildren (lastProps nextProps : Props) (k : String) :
    isDeleted (withoutChildren lastProps) (withoutChildren nextProps) k
      = isDeleted lastProps nextProps k := by
  by_cases hk : k = CHILDREN
  · simp [isDeleted, hk]
  · simp [isDeleted, Props.hasOwnProperty, Props.get, lookup_withoutChildren _ _ hk]

theorem isChanged_withoutChildren (lastProps nextProps : Props) (k : String) :
    isChanged (withoutChildren lastProps) (withoutChildren nextProps) k
      = isChanged lastProps nextProps k := by
  by_cases hk : k = CHILDREN
  · simp [isChanged, hk]
  · simp [isChanged, Props.hasOwnProperty, Props.get, lookup_withoutChildren _ _ hk]

theorem filter_keys_withoutChildren (props : Props) (c : String → Bool)
    (hc : ∀ k, c k = true → k ≠ CHILDREN) :
    (withoutChildren props).keys.filter c = props.keys.filter c := by
  induction props with
  | nil => rfl
  | cons p rest ih =>
    unfold withoutChildren Props.keys at ih ⊢
    by_cases hp : p.1 = CHILDREN
    · have hcp : c p.1 = false := by
        cases h : c p.1 with
        | false => rfl
        | true => exact absurd hp (hc _ h)
      have hd : decide (p.1 ≠ CHILDREN) = false := by simpa using hp
      rw [List.filter_cons, hd]
      simp only [Bool.false_eq_true, if_false, List.map_cons, List.filter_cons, hcp]
      exact ih
    · have hd : decide (p.1 ≠ CHILDREN) = true := by simpa using hp
      rw [List.filter_cons, hd]
      simp only [if_true, List.map_cons, List.filter_cons]
      rw [ih]

theorem diffPairs_withoutChildren (lastProps nextProps : Props) :
    diffPairs (withoutChildren lastProps) (withoutChildren nextProps)
      = diffPairs lastProps nextProps := by
  have hd : isDeleted (withoutChildren lastProps) (withoutChildren nextProps)
      = isDeleted lastProps nextProps := funext (isDeleted_withoutChildren _ _)
  have hc : isChanged (withoutChildren lastProps) (withoutChildren nextProps)
      = isChanged lastProps nextProps := funext (isChanged_withoutChildren _ _)
  have hg : ∀ k ∈ nextProps.keys.filter (isChanged lastProps nextProps),
      (withoutChildren nextProps).get k = nextProps.get k := by
    intro k hk
    have hne := ((isChanged_iff _ _ _).1 (List.mem_filter.1 hk).2).1
    simp [Props.get, lookup_withoutChildren _ _ hne]
  unfold diffPairs
  rw [hd, hc,
    filter_keys_withoutChildren lastProps _ (fun k h => ((isDeleted_iff _ _ _).1 h).1),
    filter_keys_withoutChildren nextProps _ (fun k h => ((isChanged_iff _ _ _).1 h).1)]
  congr 1
  exact List.map_congr_left (fun k hk => by rw [hg k hk])

/-! ### The payload after the notification -/

theorem payloadAfter_same (result : Payload) :
    payloadAfter result [JsArg.payload result] = result := by
  cases result <;> rfl

theorem payloadAfter_eq_none_iff (result : Payload) (left : List JsArg) :
    payloadAfter result left = none ↔ result = none := by
  unfold payloadAfter
  split <;> simp_all

/-! ### diffProperties: the claims -/

/-- C1: `diffProperties`, and with it `prepareUpdate`, returns `null` exactly when
there is no shallow difference outside the `children` key: no key other than
`children` that `lastProps` owns with a value that is neither `null` nor
`undefined` and `nextProps` does not own, and no key other than `children` owned
by `nextProps` whose value is not strictly equal to the value `lastProps` has for
it, unless both values are nullish.  Otherwise the result is an array, never the
empty one.  `prepareUpdate` of `HostConfig()` returns that same result and
leaves the world alone; with any events map, whenever it returns, it returns
`null` exactly when `diffProperties` does (a listener can write to the array it
is handed, not turn it into `null` or `null` into an array). -/
theorem diffProperties_null_iff_no_shallow_difference (eventsMap : EventsMap)
    (pixiElement type root hostContext : Val) (lastProps nextProps : Props) (w : World) :
    (diffProperties pixiElement type lastProps nextProps root = none ↔
        (¬ ∃ k, k ≠ CHILDREN ∧ lastProps.hasOwnProperty k = true
            ∧ looseEqNull (lastProps.get k) = false ∧ nextProps.hasOwnProperty k = false)
        ∧ (¬ ∃ k, k ≠ CHILDREN ∧ nextProps.hasOwnProperty k = true
            ∧ strictEq (nextProps.get k) (lastProps.get k) = false
            ∧ ¬ (looseEqNull (nextProps.get k) = true
                ∧ looseEqNull (lastProps.get k) = true)))
      ∧ diffProperties pixiElement type lastProps nextProps root ≠ some []
      ∧ HostConfig.prepareUpdate defaultEventsMap pixiElement type lastProps nextProps root
          hostContext w
        = (Except.ok (diffProperties pixiElement type lastProps nextProps root), w)
      ∧ ((∃ r, (HostConfig.prepareUpdate eventsMap pixiElement type lastProps nextProps root
              hostContext w).1 = Except.ok r
            ∧ (r = none ↔ diffProperties pixiElement type lastProps nextProps root = none))
        ∨ ∃ e, (HostConfig.prepareUpdate eventsMap pixiElement type lastProps nextProps root
            hostContext w).1 = Except.error e) := by
  refine ⟨?_, ?_, ?_, ?_⟩
  · rw [diffProperties_eq]
    have hnil := diffPairs_eq_nil_iff lastProps nextProps
    simp only [isDeleted_iff, isChanged_iff] at hnil
    by_cases h : diffPairs lastProps nextProps = []
    · rw [if_pos h]
      exact ⟨fun _ => hnil.1 h, fun _ => rfl⟩
    · rw [if_neg h]
      exact ⟨fun hs => (by cases hs), fun hc => absurd (hnil.2 hc) h⟩
  · rw [diffProperties_eq]
    by_cases h : diffPairs lastProps nextProps = []
    · simp [h]
    · simp [h, flatten_eq_nil_iff]
  · simp only [HostConfig.prepareUpdate, notify, defaultEventsMap, bind, Eff.bind, pure,
      Eff.pure]
    rw [payloadAfter_same]
  · simp only [HostConfig.prepareUpdate, notify, bind, Eff.bind, pure, Eff.pure]
    cases eventsMap "prepareUpdate" with
    | none => exact Or.inl ⟨_, rfl, payloadAfter_eq_none_iff _ _⟩
    | some l =>
      simp only
      cases (l [JsArg.payload (diffProperties pixiElement type lastProps nextProps root)]
        w.store).1 with
      | ok left => exact Or.inl ⟨_, rfl, payloadAfter_eq_none_iff _ _⟩
      | error e => exact Or.inr ⟨e, rfl⟩

/-- C2: when `diffProperties` returns an array, the array is the flat list of
pairs made of one pair `(k, null)` for each deleted property `k` in the
enumeration order of `lastProps`, followed by one pair `(k, nextProps[k])` for
each changed property `k` in the enumeration order of `nextProps`.  So its
length is even, no key is in two pairs, and no pair is queued for a property
that did not change. -/
theorem diffProperties_payload_layout (pixiElement type root : Val)
    (lastProps nextProps : Props) (arr : List Val)
    (hl : lastProps.WellFormed) (hn : nextProps.WellFormed)
    (h : diffProperties pixiElement type lastProps nextProps root = some arr) :
    arr = flatten (diffPairs lastProps nextProps)
      ∧ arr.length % 2 = 0
      ∧ (payloadKeys arr).Nodup
      ∧ ∀ k, Val.str k ∈ payloadKeys arr → unchanged lastProps nextProps k = false := by
  rw [diffProperties_eq] at h
  by_cases hnil : diffPairs lastProps nextProps = []
  · simp [hnil] at h
  · simp only [hnil, if_false, Option.some.injEq] at h
    subst h
    refine ⟨rfl, ?_, ?_, ?_⟩
    · rw [flatten_length]; omega
    · rw [payloadKeys_flatten]
      have hnd := diffPairs_keys_nodup lastProps nextProps hl hn
      have hmap : (diffPairs lastProps nextProps).map (fun p => Val.str p.1)
          = ((diffPairs lastProps nextProps).map Prod.fst).map Val.str := by
        rw [List.map_map]; rfl
      rw [hmap]
      exact hnd.map (fun a b hab => by injection hab)
    · intro k hk
      rw [payloadKeys_flatten] at hk
      obtain ⟨p, hp, hpk⟩ := List.mem_map.1 hk
      have hkp : p.1 = k := by injection hpk
      rw [← hkp]
      exact unchanged_of_mem_diffPairs _ _ _ hp

/-- C3: the `children` property is a no-op for diffing: the result of
`diffProperties` is the result on the two dictionaries with the `children` key
removed from both, and the key `children` is never a key of a payload. -/
theorem diffProperties_ignores_children (pixiElement type root pixiElement' type' root' : Val)
    (lastProps nextProps : Props) :
    diffProperties pixiElement type lastProps nextProps root
        = diffProperties pixiElement' type' (withoutChildren lastProps)
            (withoutChildren nextProps) root'
      ∧ Val.str CHILDREN
          ∉ payloadKeys ((diffProperties pixiElement type lastProps nextProps root).getD []) := by
  refine ⟨?_, ?_⟩
  · rw [diffProperties_eq, diffProperties_eq, diffPairs_withoutChildren]
  · rw [diffProperties_eq]
    by_cases hnil : diffPairs lastProps nextProps = []
    · simp [hnil, payloadKeys]
    · simp only [hnil, if_false, Option.getD_some]
      rw [payloadKeys_flatten]
      intro hmem
      obtain ⟨p, hp, hpk⟩ := List.mem_map.1 hmem
      have hkp : p.1 = CHILDREN := by injection hpk
      rcases mem_diffPairs _ _ _ hp with hd | hc
      · exact ((isDeleted_iff _ _ _).1 hd).1 hkp
      · exact ((isChanged_iff _ _ _).1 hc).1 hkp

/-! ### Agreement of runs -/

theorem Store.agreeOn_refl (scene : Nat → Prop) (s : Store) : Store.AgreeOn scene s s :=
  fun _ _ => rfl

theorem Store.agreeOn_set (scene : Nat → Prop) (s s' : Store) (id : Nat) (f : Obj → Obj)
    (h : Store.AgreeOn scene s s') :
    Store.AgreeOn scene (s.set id (f (s id))) (s'.set id (f (s' id))) := by
  intro j hj
  unfold Store.set
  by_cases hji : j = id
  · subst hji
    simp only [if_true]
    rw [h j hj]
  · simp only [hji, if_false]
    exact h j hj

theorem Eff.agree_pure {α : Type} (scene : Nat → Prop) (a : α) :
    Eff.Agree scene (pure a : Eff α) (pure a) :=
  ⟨fun _ _ h => ⟨rfl, h⟩⟩

theorem Eff.agree_bind {α β : Type} {scene : Nat → Prop} {x y : Eff α} {f g : α → Eff β}
    (hx : Eff.Agree scene x y)
    (hf : ∀ a, (∃ w, (x w).1 = Except.ok a) → Eff.Agree scene (f a) (g a)) :
    Eff.Agree scene (x >>= f) (y >>= g) := by
  constructor
  intro w w' h
  obtain ⟨h1, h2⟩ := hx.same w w' h
  show (Eff.bind x f w).1 = (Eff.bind y g w').1
    ∧ Store.AgreeOn scene (Eff.bind x f w).2.store (Eff.bind y g w').2.store
  unfold Eff.bind
  rcases hxw : x w with ⟨r, w1⟩
  rcases hyw : y w' with ⟨r', w1'⟩
  rw [hxw, hyw] at h1 h2
  simp only at h1 h2
  subst h1
  cases r with
  | ok a => exact (hf a ⟨w, by rw [hxw]⟩).same w1 w1' h2
  | error e => exact ⟨rfl, h2⟩

theorem Eff.agree_liftStore {α : Type} {scene : Nat → Prop} {op : StoreOp α}
    (h : WithinScene scene op) : Eff.Agree scene (liftStore op) (liftStore op) :=
  ⟨fun w w' hw => h w.store w'.store hw⟩

theorem Eff.agree_readStore {α : Type} {scene : Nat → Prop} {f : Store → α}
    (h : ∀ s s', Store.AgreeOn scene s s' → f s = f s') :
    Eff.Agree scene (readStore f) (readStore f) := by
  constructor
  intro w w' hw
  refine ⟨?_, hw⟩
  show Except.ok (f w.store) = Except.ok (f w'.store)
  rw [h _ _ hw]

theorem Eff.agree_raise {α : Type} (scene : Nat → Prop) (e : JsError) :
    Eff.Agree scene (raise e : Eff α) (raise e) :=
  ⟨fun _ _ h => ⟨rfl, h⟩⟩

theorem Eff.agree_invariant (scene : Nat → Prop) (c : Bool) (m : String) :
    Eff.Agree scene (invariant c m) (invariant c m) := by
  unfold invariant
  split
  · exact ⟨fun _ _ h => ⟨rfl, h⟩⟩
  · exact Eff.agree_raise _ _

theorem Eff.agree_notify {scene : Nat → Prop} {eventsMap : EventsMap}
    (h : eventsMap.Harmless scene) (event : String) (value : List JsArg) :
    Eff.Agree scene (notify eventsMap event value) (notify defaultEventsMap event value) := by
  constructor
  intro w w' hw
  unfold notify defaultEventsMap
  cases hl : eventsMap event with
  | none => exact ⟨rfl, hw⟩
  | some l =>
    obtain ⟨hthrow, hargs, hkeep⟩ := h event l hl
    refine ⟨?_, ?_⟩
    · show (l value w.store).1 = Except.ok value
      cases hr : (l value w.store).1 with
      | error e => exact absurd hr (hthrow value w.store e)
      | ok left => rw [(hargs value w.store).2 left hr]
    · intro id hid
      show (l value w.store).2 id = w'.store id
      rw [hkeep value w.store id hid]
      exact hw id hid

theorem Eff.agree_callEvent {scene : Nat → Prop} {eventsMap : EventsMap}
    (h : eventsMap.Harmless scene) (event : String) (value : List JsArg) :
    Eff.Agree scene (callEvent eventsMap event value) (callEvent defaultEventsMap event value) := by
  constructor
  intro w w' hw
  obtain ⟨h1, h2⟩ := (Eff.agree_notify h event value).same w w' hw
  unfold callEvent
  exact ⟨by simp only [h1], h2⟩

theorem Eff.agree_map {α β : Type} {scene : Nat → Prop} (f : α → β) {x y : Eff α}
    (h : Eff.Agree scene x y) : Eff.Agree scene (Eff.map f x) (Eff.map f y) :=
  Eff.agree_bind h (fun _ _ => Eff.agree_pure _ _)

theorem Eff.agree_read (scene : Nat → Prop) (props : JsProps) (key : String) :
    Eff.Agree scene (props.read key) (props.read key) := by
  unfold JsProps.read
  split
  · exact Eff.agree_pure _ _
  · exact Eff.agree_raise _ _

theorem readStore_ok {α : Type} {f : Store → α} {a : α}
    (h : ∃ w, (readStore f w).1 = Except.ok a) : ∃ s, f s = a := by
  obtain ⟨w, hw⟩ := h
  refine ⟨w.store, ?_⟩
  have : (readStore f w).1 = Except.ok (f w.store) := rfl
  rw [this] at hw
  injection hw

theorem within_setVisible (scene : Nat → Prop) (inst : Nat) (value : Val) :
    WithinScene scene (setVisible inst value) :=
  fun s s' h => ⟨rfl, Store.agreeOn_set scene s s' inst (fun o => { o with visible := value }) h⟩

theorem within_getChildIndex {scene : Nat → Prop} {parent : Nat} (hp : scene parent)
    (child : Nat) : WithinScene scene (getChildIndex parent child) := by
  intro s s' h
  unfold getChildIndex
  rw [h parent hp]
  split
  · exact ⟨rfl, h⟩
  · exact ⟨rfl, h⟩

theorem within_setChildIndex {scene : Nat → Prop} {parent : Nat} (hp : scene parent)
    (child index : Nat) : WithinScene scene (setChildIndex parent child index) := by
  intro s s' h
  refine ⟨rfl, ?_⟩
  unfold setChildIndex
  simp only
  rw [h parent hp]
  intro j hj
  unfold Store.set
  split
  · rfl
  · exact h j hj

theorem within_addChildAt {scene : Nat → Prop} {parent : Nat} (hp : scene parent)
    (child index : Nat) : WithinScene scene (addChildAt parent child index) := by
  intro s s' h
  refine ⟨rfl, ?_⟩
  unfold addChildAt
  simp only
  rw [h parent hp]
  intro j hj
  unfold Store.set
  split
  · rfl
  · exact h j hj

theorem agree_appendChild {scene : Nat → Prop} {ext : Externals} (hext : ext.Within scene)
    {parent child : Nat} (hp : scene parent) (hc : scene child) :
    Eff.Agree scene (appendChild ext parent child) (appendChild ext parent child) := by
  unfold appendChild
  refine Eff.agree_bind (Eff.agree_readStore (fun s s' h => hext.hasAddChild s s' parent hp h))
    (fun hasAddChild _ => ?_)
  split
  · refine Eff.agree_bind (Eff.agree_liftStore (hext.addChild parent child hp hc)) (fun _ _ => ?_)
    refine Eff.agree_bind (Eff.agree_readStore (fun s s' h => hext.didMount s s' child hc h))
      (fun didMount hd => ?_)
    obtain ⟨s, hs⟩ := readStore_ok hd
    split
    · rename_i callback
      exact Eff.agree_liftStore (hext.didMountCall s child callback parent hc hp hs)
    · exact Eff.agree_pure _ _
  · exact Eff.agree_pure _ _

theorem agree_removeChild {scene : Nat → Prop} {ext : Externals} (hext : ext.Within scene)
    {parent child : Nat} (hp : scene parent) (hc : scene child) :
    Eff.Agree scene (removeChild ext parent child) (removeChild ext parent child) := by
  unfold removeChild
  refine Eff.agree_bind (Eff.agree_readStore (fun s s' h => hext.willUnmount s s' child hc h))
    (fun willUnmount hd => ?_)
  obtain ⟨s, hs⟩ := readStore_ok hd
  have hrest : Eff.Agree scene
      (liftStore (ext.removeChild parent child) >>= fun _ => liftStore (ext.destroy child))
      (liftStore (ext.removeChild parent child) >>= fun _ => liftStore (ext.destroy child)) :=
    Eff.agree_bind (Eff.agree_liftStore (hext.removeChild parent child hp hc))
      (fun _ _ => Eff.agree_liftStore (hext.destroy child hc))
  dsimp only
  split
  · rename_i callback
    exact Eff.agree_bind
      (Eff.agree_liftStore (hext.willUnmountCall s child callback parent hc hp hs))
      (fun _ _ => hrest)
  · exact Eff.agree_bind (Eff.agree_pure _ _) (fun _ _ => hrest)

theorem agree_insertBefore {scene : Nat → Prop} {parent : Nat} (hp : scene parent)
    (child beforeChild : Nat) :
    Eff.Agree scene (insertBefore parent child beforeChild)
      (insertBefore parent child beforeChild) := by
  unfold insertBefore
  refine Eff.agree_bind (Eff.agree_invariant _ _ _) (fun _ _ => ?_)
  refine Eff.agree_bind (Eff.agree_readStore (fun s s' h => by rw [h parent hp])) (fun _ _ => ?_)
  refine Eff.agree_bind (Eff.agree_liftStore (within_getChildIndex hp _)) (fun _ _ => ?_)
  split
  · exact Eff.agree_liftStore (within_setChildIndex hp _ _)
  · exact Eff.agree_liftStore (within_addChildAt hp _ _)

theorem Eff.silent_pure {α : Type} (a : α) : Eff.Silent (pure a : Eff α) := ⟨fun _ => rfl⟩

theorem Eff.silent_bind {α β : Type} {x : Eff α} {f : α → Eff β} (hx : Eff.Silent x)
    (hf : ∀ a, Eff.Silent (f a)) : Eff.Silent (x >>= f) := by
  constructor
  intro w
  have h1 := hx.same w
  show (Eff.bind x f w).2.notified = w.notified
  unfold Eff.bind
  rcases hxw : x w with ⟨r, w1⟩
  rw [hxw] at h1
  cases r with
  | ok a => exact ((hf a).same w1).trans h1
  | error e => exact h1

theorem Eff.silent_liftStore {α : Type} (op : StoreOp α) : Eff.Silent (liftStore op) :=
  ⟨fun _ => rfl⟩

theorem Eff.silent_readStore {α : Type} (f : Store → α) : Eff.Silent (readStore f) :=
  ⟨fun _ => rfl⟩

theorem Eff.silent_raise {α : Type} (e : JsError) : Eff.Silent (raise e : Eff α) :=
  ⟨fun _ => rfl⟩

theorem Eff.silent_invariant (c : Bool) (m : String) : Eff.Silent (invariant c m) := by
  unfold invariant
  split
  · exact ⟨fun _ => rfl⟩
  · exact Eff.silent_raise _

theorem Eff.silent_notify (event : String) (value : List JsArg) :
    Eff.Silent (notify defaultEventsMap event value) := ⟨fun _ => rfl⟩

theorem Eff.silent_callEvent (event : String) (value : List JsArg) :
    Eff.Silent (callEvent defaultEventsMap event value) := ⟨fun _ => rfl⟩

theorem Eff.silent_map {α β : Type} (f : α → β) {x : Eff α} (h : Eff.Silent x) :
    Eff.Silent (Eff.map f x) :=
  Eff.silent_bind h (fun _ => Eff.silent_pure _)

theorem Eff.silent_read (props : JsProps) (key : String) : Eff.Silent (props.read key) := by
  unfold JsProps.read
  split
  · exact Eff.silent_pure _
  · exact Eff.silent_raise _

set_option maxHeartbeats 4000000 in
/-- With listeners harmless to the scene every hook agrees, on the scene, with
the hook of `HostConfig()`. -/
theorem agree_hostConfig {scene : Nat → Prop} {ext : Externals} (hext : ext.Within scene)
    {eventsMap : EventsMap} (h : eventsMap.Harmless scene) (call : HookCall)
    (hcall : ∀ id ∈ call.objects, scene id) :
    Eff.Agree scene (HostConfig ext eventsMap call) (HostConfig ext defaultEventsMap call) := by
  cases call <;>
    (simp only [HostConfig]
     refine Eff.agree_map _ ?_
     try simp only [HostConfig.getRootHostContext, HostConfig.getChildHostContext,
       HostConfig.getChildHostContextForEventComponent, HostConfig.getPublicInstance,
       HostConfig.prepareForCommit, HostConfig.resetAfterCommit, HostConfig.createInstance,
       HostConfig.hideInstance, HostConfig.unhideInstance, HostConfig.appendInitialChild,
       HostConfig.finalizeInitialChildren, HostConfig.prepareUpdate,
       HostConfig.shouldSetTextContent, HostConfig.shouldDeprioritizeSubtree,
       HostConfig.createTextInstance, HostConfig.mountEventComponent,
       HostConfig.updateEventComponent, HostConfig.handleEventTarget,
       HostConfig.scheduleTimeout, HostConfig.cancelTimeout, HostConfig.now,
       HostConfig.appendChild, HostConfig.appendChildToContainer, HostConfig.removeChild,
       HostConfig.removeChildFromContainer, HostConfig.insertBefore,
       HostConfig.insertInContainerBefore, HostConfig.commitUpdate, HostConfig.commitMount,
       HostConfig.commitTextUpdate, HostConfig.resetTextContent]
     repeat (first
       | exact Eff.agree_callEvent h _ _
       | exact Eff.agree_notify h _ _
       | exact Eff.agree_liftStore (within_setVisible _ _ _)
       | exact Eff.agree_liftStore (hext.createElement _ _ _)
       | exact Eff.agree_liftStore (hext.setTimeout _)
       | exact Eff.agree_liftStore (hext.clearTimeout _)
       | exact Eff.agree_liftStore hext.performanceNow
       | exact Eff.agree_liftStore
           (hext.reactApplyProps _ _ _ (hcall _ (by simp [HookCall.objects])))
       | exact agree_appendChild hext (hcall _ (by simp [HookCall.objects]))
           (hcall _ (by simp [HookCall.objects]))
       | exact agree_removeChild hext (hcall _ (by simp [HookCall.objects]))
           (hcall _ (by simp [HookCall.objects]))
       | exact agree_insertBefore (hcall _ (by simp [HookCall.objects])) _ _
       | exact Eff.agree_pure _ _
       | exact Eff.agree_raise _ _
       | exact Eff.agree_invariant _ _ _
       | exact Eff.agree_read _ _ _
       | apply Eff.agree_bind
       | intro _
       | split))

/-- The hooks of `HostConfig()` call no listener. -/
theorem silent_hostConfig (ext : Externals) (call : HookCall) :
    Eff.Silent (HostConfig ext defaultEventsMap call) := by
  cases call <;>
    (simp only [HostConfig]
     refine Eff.silent_map _ ?_
     try simp only [HostConfig.getRootHostContext, HostConfig.getChildHostContext,
       HostConfig.getChildHostContextForEventComponent, HostConfig.getPublicInstance,
       HostConfig.prepareForCommit, HostConfig.resetAfterCommit, HostConfig.createInstance,
       HostConfig.hideInstance, HostConfig.unhideInstance, HostConfig.appendInitialChild,
       HostConfig.finalizeInitialChildren, HostConfig.prepareUpdate,
       HostConfig.shouldSetTextContent, HostConfig.shouldDeprioritizeSubtree,
       HostConfig.createTextInstance, HostConfig.mountEventComponent,
       HostConfig.updateEventComponent, HostConfig.handleEventTarget,
       HostConfig.scheduleTimeout, HostConfig.cancelTimeout, HostConfig.now,
       HostConfig.appendChild, HostConfig.appendChildToContainer, HostConfig.removeChild,
       HostConfig.removeChildFromContainer, HostConfig.insertBefore,
       HostConfig.insertInContainerBefore, HostConfig.commitUpdate, HostConfig.commitMount,
       HostConfig.commitTextUpdate, HostConfig.resetTextContent, ReactPixi.appendChild,
       ReactPixi.removeChild, ReactPixi.insertBefore]
     repeat (first
       | exact Eff.silent_callEvent _ _
       | exact Eff.silent_notify _ _
       | exact Eff.silent_liftStore _
       | exact Eff.silent_readStore _
       | exact Eff.silent_pure _
       | exact Eff.silent_raise _
       | exact Eff.silent_invariant _ _
       | exact Eff.silent_read _ _
       | apply Eff.silent_bind
       | intro _
       | split))

/-! ### Visibility, insertion and text nodes: helper facts -/

theorem callEvent_store_of_keepsStore {eventsMap : EventsMap} (h : eventsMap.KeepsStore)
    (event : String) (value : List JsArg) (w : World) :
    (callEvent eventsMap event value w).2.store = w.store := by
  unfold callEvent notify
  cases hl : eventsMap event with
  | none => rfl
  | some l => exact h event l hl value w.store

theorem hideInstance_eq (eventsMap : EventsMap) (inst : Nat) (w : World) :
    HostConfig.hideInstance eventsMap inst w
      = callEvent eventsMap "hideInstance" [JsArg.val (Val.bool false)]
          { w with store := w.store.set inst { w.store inst with visible := Val.bool false } } :=
  rfl

theorem unhideInstance_eq (eventsMap : EventsMap) (inst : Nat) (props : JsProps) (w : World) :
    HostConfig.unhideInstance eventsMap inst props w
      = callEvent eventsMap "unhideInstance" [JsArg.val (specVisible props)]
          { w with
            store := w.store.set inst { w.store inst with visible := specVisible props } } := by
  cases props <;> rfl

theorem Store.set_same (store : Store) (id : Nat) (obj : Obj) : store.set id obj id = obj := by
  simp [Store.set]

theorem Store.set_other (store : Store) (id j : Nat) (obj : Obj) (h : j ≠ id) :
    store.set id obj j = store j := by
  simp [Store.set, h]

theorem insertBefore_self (parent c : Nat) (w : World) :
    insertBefore parent c c w
      = (Except.error (JsError.invariantViolation
          "react-pixi: PixiFiber cannot insert node before itself"), w) := by
  simp [insertBefore, invariant, bind, Eff.bind, raise]

theorem insertBefore_ne (parent child beforeChild : Nat) (w : World) (h : child ≠ beforeChild)
    (m : String) :
    (insertBefore parent child beforeChild w).1 ≠ Except.error (JsError.invariantViolation m) := by
  have hb : (child != beforeChild) = true := by simpa using h
  by_cases hidx : indexOf (w.store parent).children beforeChild = -1
  · have : (insertBefore parent child beforeChild w).1
        = Except.error (JsError.error "The supplied DisplayObject must be a child of the caller") := by
      simp [insertBefore, invariant, hb, bind, Eff.bind, Eff.pure, readStore, liftStore,
        getChildIndex, hidx]
    rw [this]
    simp
  · have : (insertBefore parent child beforeChild w).1 = Except.ok () := by
      simp only [insertBefore, invariant, hb, if_true, bind, Eff.bind, Eff.pure, readStore,
        liftStore, getChildIndex, hidx, if_false]
      split <;> rfl
    rw [this]
    simp

/-! ### What insertBefore does to the children -/

theorem indexOf_eq_neg_one_iff (array : List Nat) (x : Nat) : indexOf array x = -1 ↔ x ∉ array := by
  unfold indexOf
  by_cases h : x ∈ array
  · simp only [h, if_true, not_true_eq_false, iff_false]
    omega
  · simp [h]

theorem insertBefore_children (parent child beforeChild : Nat) (w : World)
    (hne : child ≠ beforeChild) (hmem : beforeChild ∈ (w.store parent).children) :
    insertBefore parent child beforeChild w
      = (Except.ok (),
          { w with
            store := w.store.set parent
              { w.store parent with
                children :=
                  if child ∈ (w.store parent).children then
                    splice ((w.store parent).children.eraseIdx
                        ((w.store parent).children.indexOf child))
                      ((w.store parent).children.indexOf beforeChild) child
                  else
                    splice (w.store parent).children
                      ((w.store parent).children.indexOf beforeChild) child } }) := by
  have hb : (child != beforeChild) = true := by simpa using hne
  have hidx : ¬ indexOf (w.store parent).children beforeChild = -1 := by
    rw [indexOf_eq_neg_one_iff]; exact fun h => h hmem
  simp only [insertBefore, invariant, hb, if_true, bind, Eff.bind, Eff.pure, readStore,
    liftStore, getChildIndex, hidx, if_false]
  by_cases hc : child ∈ (w.store parent).children
  · have h1 : ¬ indexOf (w.store parent).children child = -1 := by
      rw [indexOf_eq_neg_one_iff]; exact fun h => h hc
    have hex : (indexOf (w.store parent).children child != -1) = true := by simpa using h1
    simp only [hex, if_true, hc]
    rfl
  · have h1 : indexOf (w.store parent).children child = -1 := by
      rw [indexOf_eq_neg_one_iff]; exact hc
    have hex : (indexOf (w.store parent).children child != -1) = false := by simp [h1]
    simp only [hex, hc, if_false, Bool.false_eq_true]
    rfl

theorem splice_at_length (l1 l2 : List Nat) (x : Nat) :
    splice (l1 ++ l2) l1.length x = l1 ++ x :: l2 := by
  unfold splice
  rw [List.take_left, List.drop_left]

theorem indexOf_append_cons_self (l1 l2 : List Nat) (b : Nat) (h : b ∉ l1) :
    (l1 ++ b :: l2).indexOf b = l1.length := by
  rw [List.indexOf_append_of_not_mem h, List.indexOf_cons_self]; rfl

theorem eraseIdx_append_cons (l1 l2 : List Nat) (c : Nat) :
    (l1 ++ c :: l2).eraseIdx l1.length = l1 ++ l2 := by
  rw [List.eraseIdx_append_of_length_le (Nat.le_refl _)]
  simp

/-- A child that is not yet in the list lands immediately before `beforeChild`. -/
theorem insertBefore_new_child (parent child beforeChild : Nat) (w : World)
    (l1 l2 : List Nat) (hl : (w.store parent).children = l1 ++ beforeChild :: l2)
    (hb : beforeChild ∉ l1) (hc1 : child ∉ l1) (hc2 : child ∉ l2) (hne : child ≠ beforeChild) :
    (insertBefore parent child beforeChild w).1 = Except.ok ()
      ∧ ((insertBefore parent child beforeChild w).2.store parent).children
        = l1 ++ child :: beforeChild :: l2 := by
  have hmem : beforeChild ∈ (w.store parent).children := by rw [hl]; simp
  have hc : child ∉ (w.store parent).children := by
    rw [hl]; simp [hc1, hc2, hne]
  rw [insertBefore_children parent child beforeChild w hne hmem]
  refine ⟨rfl, ?_⟩
  simp only [Store.set_same, hc, if_false]
  rw [hl, indexOf_append_cons_self _ _ _ hb, splice_at_length]

/-- A child that sits after `beforeChild` lands immediately before it. -/
theorem insertBefore_later_child (parent child beforeChild : Nat) (w : World)
    (l1 l2 l3 : List Nat)
    (hl : (w.store parent).children = l1 ++ beforeChild :: (l2 ++ child :: l3))
    (hb : beforeChild ∉ l1) (hc1 : child ∉ l1) (hc2 : child ∉ l2) (hne : child ≠ beforeChild) :
    (insertBefore parent child beforeChild w).1 = Except.ok ()
      ∧ ((insertBefore parent child beforeChild w).2.store parent).children
        = l1 ++ child :: beforeChild :: (l2 ++ l3) := by
  have hmem : beforeChild ∈ (w.store parent).children := by rw [hl]; simp
  have hc : child ∈ (w.store parent).children := by rw [hl]; simp
  rw [insertBefore_children parent child beforeChild w hne hmem]
  refine ⟨rfl, ?_⟩
  simp only [Store.set_same, hc, if_true]
  have hci : (l1 ++ beforeChild :: (l2 ++ child :: l3)).indexOf child
      = (l1 ++ beforeChild :: l2).length := by
    have e : l1 ++ beforeChild :: (l2 ++ child :: l3) = (l1 ++ beforeChild :: l2) ++ child :: l3 := by
      simp
    rw [e]
    apply indexOf_append_cons_self
    simp [hc1, hc2, hne]
  have he : (l1 ++ beforeChild :: (l2 ++ child :: l3)).eraseIdx (l1 ++ beforeChild :: l2).length
      = l1 ++ beforeChild :: (l2 ++ l3) := by
    have e : l1 ++ beforeChild :: (l2 ++ child :: l3) = (l1 ++ beforeChild :: l2) ++ child :: l3 := by
      simp
    rw [e, eraseIdx_append_cons]; simp
  rw [hl, hci, he, indexOf_append_cons_self _ _ _ hb, splice_at_length]

/-- A child that sits before `beforeChild` lands immediately after it. -/
theorem insertBefore_earlier_child (parent child beforeChild : Nat) (w : World)
    (l1 l2 l3 : List Nat)
    (hl : (w.store parent).children = l1 ++ child :: (l2 ++ beforeChild :: l3))
    (hc : child ∉ l1) (hb1 : beforeChild ∉ l1) (hb2 : beforeChild ∉ l2)
    (hne : child ≠ beforeChild) :
    (insertBefore parent child beforeChild w).1 = Except.ok ()
      ∧ ((insertBefore parent child beforeChild w).2.store parent).children
        = l1 ++ (l2 ++ beforeChild :: child :: l3) := by
  have hmem : beforeChild ∈ (w.store parent).children := by rw [hl]; simp
  have hcm : child ∈ (w.store parent).children := by rw [hl]; simp
  rw [insertBefore_children parent child beforeChild w hne hmem]
  refine ⟨rfl, ?_⟩
  simp only [Store.set_same, hcm, if_true]
  have hbi : (l1 ++ child :: (l2 ++ beforeChild :: l3)).indexOf beforeChild
      = (l1 ++ l2 ++ [beforeChild]).length := by
    have e : l1 ++ child :: (l2 ++ beforeChild :: l3) = (l1 ++ child :: l2) ++ beforeChild :: l3 := by
      simp
    rw [e, indexOf_append_cons_self]
    · simp
    · simp [hb1, hb2, Ne.symm hne]
  rw [hl, indexOf_append_cons_self _ _ _ hc, eraseIdx_append_cons, hbi]
  have e : l1 ++ (l2 ++ beforeChild :: l3) = (l1 ++ l2 ++ [beforeChild]) ++ l3 := by simp
  rw [e, splice_at_length]
  simp

/-! ### The claims on insertion, text nodes, listeners and visibility -/

/-- C4 (the code departs from the claim): with the children `[1, 2, 3]`, the call
`insertBefore(parent, 1, 3)` returns normally and leaves the children `[2, 3, 1]`:
the child that was before `beforeChild` ends up after it, where the claim has it
immediately before, as in `[2, 1, 3]`.  The index of `beforeChild` is read while
the child is still in the list, so it is one too high once the child is removed. -/
theorem insertBefore_earlier_child_lands_after :
    (sampleWorld.store 0).children = [1, 2, 3]
      ∧ (insertBefore 0 1 3 sampleWorld).1 = Except.ok ()
      ∧ ((insertBefore 0 1 3 sampleWorld).2.store 0).children = [2, 3, 1] :=
  ⟨rfl, rfl, rfl⟩

/-- C5: a node cannot be inserted before itself: `insertBefore(parent, c, c)` throws
the invariant error `react-pixi: PixiFiber cannot insert node before itself` and
leaves the world, the children of the parent included, exactly as it was; and
`insertBefore` throws this error only when `child` and `beforeChild` are the
same node. -/
theorem insertBefore_itself_fails (parent c child beforeChild : Nat) (w : World) :
    insertBefore parent c c w
        = (Except.error (JsError.invariantViolation
            "react-pixi: PixiFiber cannot insert node before itself"), w)
      ∧ ((insertBefore parent child beforeChild w).1
            = Except.error (JsError.invariantViolation
                "react-pixi: PixiFiber cannot insert node before itself")
          ↔ child = beforeChild) := by
  refine ⟨insertBefore_self parent c w, ?_, ?_⟩
  · intro h
    by_contra hne
    exact insertBefore_ne parent child beforeChild w hne _ h
  · intro h
    subst h
    rw [insertBefore_self]

/-- C6: text nodes are not supported: for every events map and every text, root
container and instance handle, `createTextInstance` throws the invariant error
whose message is `react-pixi: ` followed by `PixiFiber does not support text
nodes as children of a Pixi component` and two sentences of advice; it returns
no instance, and it leaves the world as it was, so the `createTextInstance`
listener is not called. -/
theorem createTextInstance_always_fails (eventsMap : EventsMap)
    (text rootContainerInstance internalInstanceHandler : Val) (w : World) :
    HostConfig.createTextInstance eventsMap text rootContainerInstance internalInstanceHandler w
        = (Except.error (JsError.invariantViolation textNodeMessage), w)
      ∧ textNodeMessage
        = "react-pixi: "
          ++ "PixiFiber does not support text nodes as children of a Pixi component"
          ++ ". To pass a string value to your component, use a property other than children. "
          ++ "If you wish to display some text, you can use &lt;Text text=\x7bstring\x7d /&gt; instead."
      ∧ (HostConfig.createTextInstance eventsMap text rootContainerInstance
          internalInstanceHandler w).2.notified = w.notified :=
  ⟨rfl, rfl, rfl⟩

/-- With `pushingMap`, whose listener pushes onto the array it is handed and
leaves the heap alone, `prepareUpdate` returns the array as the listener left
it: `['x', 2, 'y', 1]` where `diffProperties` gave `['x', 2]`. -/
theorem prepareUpdate_returns_the_array_as_left :
    diffProperties (Val.ref 0) (Val.str "Sprite") [("x", Val.num 1)] [("x", Val.num 2)]
        (Val.ref 9) = some [Val.str "x", Val.num 2]
      ∧ (HostConfig.prepareUpdate pushingMap (Val.ref 0) (Val.str "Sprite") [("x", Val.num 1)]
          [("x", Val.num 2)] (Val.ref 9) Val.null sampleWorld).1
        = Except.ok (some [Val.str "x", Val.num 2, Val.str "y", Val.num 1])
      ∧ (HostConfig.prepareUpdate defaultEventsMap (Val.ref 0) (Val.str "Sprite")
          [("x", Val.num 1)] [("x", Val.num 2)] (Val.ref 9) Val.null sampleWorld).1
        = Except.ok (some [Val.str "x", Val.num 2]) :=
  ⟨by decide, rfl, rfl⟩

/-- C7 as stated fails: the listener of `showAgainMap` never throws and does not
mutate its arguments (it writes to no object it is handed and gives the values
back as they were), yet `hideInstance` of `HostConfig(showAgainMap)` leaves
object `0` visible where `hideInstance` of `HostConfig()` leaves it hidden. -/
theorem listener_writes_outside_its_arguments :
    (∀ event l, showAgainMap event = some l → l.NoThrow ∧ l.KeepsArguments)
      ∧ ((HostConfig inertExternals showAgainMap (HookCall.hideInstance 0) sampleWorld).2.store
          0).visible = Val.bool true
      ∧ ((HostConfig inertExternals defaultEventsMap (HookCall.hideInstance 0)
          sampleWorld).2.store 0).visible = Val.bool false := by
  refine ⟨?_, rfl, rfl⟩
  intro event l hl
  unfold showAgainMap at hl
  split at hl
  · injection hl with hl
    subst hl
    refine ⟨fun _ _ e he => (by cases he), fun value store => ⟨?_, ?_⟩⟩
    · intro id hmem
      by_cases h0 : JsArg.val (Val.ref 0) ∈ value
      · simp [h0]
      · have hid : id ≠ 0 := fun h => h0 (h ▸ hmem)
        simp [h0, Store.set, hid]
    · intro left hleft
      injection hleft with hleft
      exact hleft.symm
  · cases hl

/-- C7 (amended): take a scene, a set of objects that holds the objects handed to
the hook and on which alone depends what the code called by the hooks returns
and leaves in the scene.  For every events map whose listeners neither throw nor
mutate their arguments nor write to an object of the scene (they may write
elsewhere), every hook of `HostConfig(eventsMap)` returns the same value, or
throws the same error, and leaves the same objects in the scene as the same hook
of `HostConfig()`; with the default empty map no listener is called and no
notification fails.  `getRootHostContext`, `getPublicInstance` and
`getChildHostContextForEventComponent` return their argument,
`finalizeInitialChildren` and `shouldSetTextContent` return `false`, and a
`prepareUpdate` listener is handed exactly the payload that `prepareUpdate`
returns. -/
theorem hostConfig_harmless_listeners (ext : Externals) (eventsMap : EventsMap)
    (scene : Nat → Prop) (hext : ext.Within scene) (h : eventsMap.Harmless scene)
    (call : HookCall) (hcall : ∀ id ∈ call.objects, scene id) (w : World)
    (v pixiElement type root hostContext : Val) (props : JsProps) (oldProps newProps : Props) :
    (HostConfig ext eventsMap call w).1 = (HostConfig ext defaultEventsMap call w).1
      ∧ (∀ id, scene id → (HostConfig ext eventsMap call w).2.store id
          = (HostConfig ext defaultEventsMap call w).2.store id)
      ∧ (HostConfig ext defaultEventsMap call w).2.notified = w.notified
      ∧ (∀ event value, callEvent defaultEventsMap event value w = (Except.ok (), w))
      ∧ (HostConfig.getRootHostContext eventsMap v w).1 = Except.ok v
      ∧ (HostConfig.getPublicInstance eventsMap v w).1 = Except.ok v
      ∧ (HostConfig.getChildHostContextForEventComponent eventsMap v w).1 = Except.ok v
      ∧ (HostConfig.finalizeInitialChildren eventsMap v type props w).1 = Except.ok false
      ∧ (HostConfig.shouldSetTextContent eventsMap type props w).1 = Except.ok false
      ∧ (∀ l, eventsMap "prepareUpdate" = some l →
          (HostConfig.prepareUpdate eventsMap pixiElement type oldProps newProps root
              hostContext w).1
            = Except.ok (diffProperties pixiElement type oldProps newProps root)
          ∧ (HostConfig.prepareUpdate eventsMap pixiElement type oldProps newProps root
              hostContext w).2.notified
            = w.notified ++ [⟨"prepareUpdate",
                [JsArg.payload (diffProperties pixiElement type oldProps newProps root)]⟩])
    := by
  have key := (agree_hostConfig hext h call hcall).same w w (Store.agreeOn_refl _ _)
  have hcallEvent : ∀ event value, (callEvent eventsMap event value w).1 = Except.ok () := by
    intro event value
    have := ((Eff.agree_callEvent h event value).same w w (Store.agreeOn_refl _ _)).1
    rw [this]; rfl
  have hret : ∀ {α : Type} (event : String) (value : List JsArg) (a : α),
      ((callEvent eventsMap event value >>= fun _ => (pure a : Eff α)) w).1 = Except.ok a := by
    intro α event value a
    show (Eff.bind (callEvent eventsMap event value) (fun _ => Eff.pure a) w).1 = Except.ok a
    have h1 := hcallEvent event value
    unfold Eff.bind
    rcases hx : callEvent eventsMap event value w with ⟨r, w1⟩
    rw [hx] at h1
    simp only at h1
    subst h1
    rfl
  refine ⟨key.1, key.2, (silent_hostConfig ext call).same w, fun _ _ => rfl, hret _ _ _,
    hret _ _ _, hret _ _ _, hret _ _ _, hret _ _ _, ?_⟩
  intro l hl
  obtain ⟨hthrow, hargs, _⟩ := h "prepareUpdate" l hl
  have h1 : (l [JsArg.payload (diffProperties pixiElement type oldProps newProps root)]
      w.store).1
      = Except.ok [JsArg.payload (diffProperties pixiElement type oldProps newProps root)] := by
    cases hr : (l [JsArg.payload (diffProperties pixiElement type oldProps newProps root)]
        w.store).1 with
    | error e => exact absurd hr (hthrow _ _ e)
    | ok left => rw [(hargs _ _).2 left hr]
  simp [HostConfig.prepareUpdate, notify, hl, bind, Eff.bind, pure, Eff.pure, h1,
    payloadAfter_same]

/-- C8: `hideInstance` and `unhideInstance` write the field `visible` and nothing
else.  For every events map, what `hideInstance` does is set `instance.visible` to
`false` and then notify, and what `unhideInstance` does is set it to `props.visible`
when `props` is neither `null` nor `undefined` and owns a `visible` key and to `true`
otherwise, whatever `visible` was before, and then notify.  So when no listener
writes to the heap, as with the default map, the instance ends with that value
of `visible`, its children and every other field as they were and every other
object untouched; unhiding after hiding gives that same heap, with `visible`
being `true` for props without a `visible` key and `false` for `visible: false`. -/
theorem hide_unhide_write_only_visible (eventsMap : EventsMap) (inst : Nat) (props : JsProps)
    (w : World) :
    HostConfig.hideInstance eventsMap inst w
        = callEvent eventsMap "hideInstance" [JsArg.val (Val.bool false)]
            { w with
              store := w.store.set inst { w.store inst with visible := Val.bool false } }
      ∧ HostConfig.unhideInstance eventsMap inst props w
        = callEvent eventsMap "unhideInstance" [JsArg.val (specVisible props)]
            { w with
              store := w.store.set inst { w.store inst with visible := specVisible props } }
      ∧ (HostConfig.hideInstance defaultEventsMap inst w).2.store
        = w.store.set inst { w.store inst with visible := Val.bool false }
      ∧ (HostConfig.unhideInstance defaultEventsMap inst props w).2.store
        = w.store.set inst { w.store inst with visible := specVisible props }
      ∧ (eventsMap.KeepsStore →
          ((HostConfig.hideInstance eventsMap inst w).2.store inst).visible = Val.bool false
          ∧ ((HostConfig.unhideInstance eventsMap inst props w).2.store inst).visible
            = specVisible props
          ∧ ((HostConfig.hideInstance eventsMap inst w).2.store inst).children
            = (w.store inst).children
          ∧ ((HostConfig.hideInstance eventsMap inst w).2.store inst).fields
            = (w.store inst).fields
          ∧ ((HostConfig.unhideInstance eventsMap inst props w).2.store inst).children
            = (w.store inst).children
          ∧ ((HostConfig.unhideInstance eventsMap inst props w).2.store inst).fields
            = (w.store inst).fields
          ∧ (∀ j, j ≠ inst → (HostConfig.hideInstance eventsMap inst w).2.store j = w.store j
              ∧ (HostConfig.unhideInstance eventsMap inst props w).2.store j = w.store j)
          ∧ (HostConfig.unhideInstance eventsMap inst props
              (HostConfig.hideInstance eventsMap inst w).2).2.store
            = w.store.set inst { w.store inst with visible := specVisible props })
      ∧ specVisible (JsProps.dict []) = Val.bool true
      ∧ specVisible (JsProps.dict [("visible", Val.bool false)]) = Val.bool false := by
  have hu0 : ∀ (em : EventsMap) (w : World), HostConfig.unhideInstance em inst props w
      = callEvent em "unhideInstance" [JsArg.val (specVisible props)]
          { w with
            store := w.store.set inst { w.store inst with visible := specVisible props } } :=
    fun em w => unhideInstance_eq em inst props w
  refine ⟨rfl, hu0 eventsMap w, rfl, ?_, ?_, rfl, rfl⟩
  · rw [hu0]; rfl
  intro h
  have hh : (HostConfig.hideInstance eventsMap inst w).2.store
      = w.store.set inst { w.store inst with visible := Val.bool false } := by
    rw [hideInstance_eq, callEvent_store_of_keepsStore h]
  have hu : ∀ w : World, (HostConfig.unhideInstance eventsMap inst props w).2.store
      = w.store.set inst { w.store inst with visible := specVisible props } := by
    intro w
    rw [hu0, callEvent_store_of_keepsStore h]
  refine ⟨?_, ?_, ?_, ?_, ?_, ?_, ?_, ?_⟩
  · rw [hh, Store.set_same]
  · rw [hu, Store.set_same]
  · rw [hh, Store.set_same]
  · rw [hh, Store.set_same]
  · rw [hu, Store.set_same]
  · rw [hu, Store.set_same]
  · intro j hj
    rw [hh, hu, Store.set_other _ _ _ _ hj, Store.set_other _ _ _ _ hj]
    exact ⟨rfl, rfl⟩
  · rw [hu, hh]
    funext j
    by_cases hj : j = inst
    · subst hj; simp [Store.set]
    · simp [Store.set, hj]

/-! ### The theorems at concrete inputs -/

theorem countingMap_harmless : countingMap.Harmless sampleScene := by
  intro event l hl
  unfold countingMap at hl
  split at hl
  · injection hl with hl
    subst hl
    refine ⟨fun _ _ e he => (by cases he), fun value store => ⟨?_, ?_⟩, ?_⟩
    · intro id hmem
      by_cases h0 : JsArg.val (Val.ref 100) ∈ value
      · simp [h0]
      · have hid : id ≠ 100 := fun h => h0 (h ▸ hmem)
        simp [h0, Store.set, hid]
    · intro left hleft
      injection hleft with hleft
      exact hleft.symm
    · intro value store id hid
      have hne : id ≠ 100 := by
        unfold sampleScene at hid
        omega
      by_cases h0 : JsArg.val (Val.ref 100) ∈ value
      · simp [h0]
      · simp [h0, Store.set, hne]
  · cases hl

theorem inertExternals_within (scene : Nat → Prop) : inertExternals.Within scene where
  createElement := fun _ _ _ _ _ h => ⟨rfl, h⟩
  hasAddChild := fun _ _ _ _ _ => rfl
  addChild := fun _ _ _ _ _ _ h => ⟨rfl, h⟩
  didMount := fun _ _ _ _ _ => rfl
  didMountCall := fun _ _ _ _ _ _ hd => by cases hd
  willUnmount := fun _ _ _ _ _ => rfl
  willUnmountCall := fun _ _ _ _ _ _ hd => by cases hd
  removeChild := fun _ _ _ _ _ _ h => ⟨rfl, h⟩
  destroy := fun _ _ _ _ h => ⟨rfl, h⟩
  reactApplyProps := fun _ _ _ _ _ _ h => ⟨rfl, h⟩
  setTimeout := fun _ _ _ h => ⟨rfl, h⟩
  clearTimeout := fun _ _ _ h => ⟨rfl, h⟩
  performanceNow := fun _ _ h => ⟨rfl, h⟩

theorem throwingMap_keepsStore : throwingMap.KeepsStore := by
  intro event l hl
  unfold throwingMap at hl
  split at hl
  · injection hl with hl
    subst hl
    exact fun _ _ => rfl
  · cases hl

/-- The payload of C2 on `{x: 1, y: 2}` against `{x: 3, z: NaN}`. -/
theorem diffProperties_payload_layout_witness :
    Props.WellFormed [("x", Val.num 1), ("y", Val.num 2)]
      ∧ Props.WellFormed [("x", Val.num 3), ("z", Val.nan)]
      ∧ diffProperties Val.null Val.null [("x", Val.num 1), ("y", Val.num 2)]
          [("x", Val.num 3), ("z", Val.nan)] Val.null
        = some [Val.str "y", Val.null, Val.str "x", Val.num 3, Val.str "z", Val.nan]
      ∧ ([Val.str "y", Val.null, Val.str "x", Val.num 3, Val.str "z", Val.nan]
          = flatten (diffPairs [("x", Val.num 1), ("y", Val.num 2)]
              [("x", Val.num 3), ("z", Val.nan)])
        ∧ [Val.str "y", Val.null, Val.str "x", Val.num 3, Val.str "z", Val.nan].length % 2 = 0
        ∧ (payloadKeys
            [Val.str "y", Val.null, Val.str "x", Val.num 3, Val.str "z", Val.nan]).Nodup
        ∧ ∀ k, Val.str k ∈ payloadKeys
              [Val.str "y", Val.null, Val.str "x", Val.num 3, Val.str "z", Val.nan] →
            unchanged [("x", Val.num 1), ("y", Val.num 2)] [("x", Val.num 3), ("z", Val.nan)] k
              = false) :=
  ⟨by decide, by decide, by decide,
    diffProperties_payload_layout Val.null Val.null Val.null [("x", Val.num 1), ("y", Val.num 2)]
      [("x", Val.num 3), ("z", Val.nan)] _ (by decide) (by decide) (by decide)⟩

/-- The hooks of C7 under `countingMap`, whose listener writes outside the scene,
on a `hideInstance` call: the same outcome and the same object `0`. -/
theorem hostConfig_harmless_listeners_witness :
    inertExternals.Within sampleScene
      ∧ countingMap.Harmless sampleScene
      ∧ (∀ id ∈ (HookCall.hideInstance 0).objects, sampleScene id)
      ∧ (HostConfig inertExternals countingMap (HookCall.hideInstance 0) sampleWorld).1
          = (HostConfig inertExternals defaultEventsMap (HookCall.hideInstance 0) sampleWorld).1
      ∧ (∀ id, sampleScene id →
          (HostConfig inertExternals countingMap (HookCall.hideInstance 0) sampleWorld).2.store id
            = (HostConfig inertExternals defaultEventsMap (HookCall.hideInstance 0)
                sampleWorld).2.store id) :=
  ⟨inertExternals_within sampleScene, countingMap_harmless,
    fun id hid => by
      simp only [HookCall.objects, List.mem_singleton] at hid
      subst hid
      show (0 : Nat) < 10
      omega,
    (hostConfig_harmless_listeners inertExternals countingMap sampleScene
      (inertExternals_within sampleScene) countingMap_harmless (HookCall.hideInstance 0)
      (fun id hid => by
        simp only [HookCall.objects, List.mem_singleton] at hid
        subst hid
        show (0 : Nat) < 10
        omega)
      sampleWorld Val.null Val.null Val.null Val.null Val.null JsProps.null [] []).1,
    (hostConfig_harmless_listeners inertExternals countingMap sampleScene
      (inertExternals_within sampleScene) countingMap_harmless (HookCall.hideInstance 0)
      (fun id hid => by
        simp only [HookCall.objects, List.mem_singleton] at hid
        subst hid
        show (0 : Nat) < 10
        omega)
      sampleWorld Val.null Val.null Val.null Val.null Val.null JsProps.null [] []).2.1⟩

/-- The hooks of C8 under `throwingMap`, whose listener throws after the write:
object `0` ends hidden, and stays hidden when unhidden with `visible: false`. -/
theorem hide_unhide_write_only_visible_witness :
    throwingMap.KeepsStore
      ∧ ((HostConfig.hideInstance throwingMap 0 sampleWorld).2.store 0).visible = Val.bool false
      ∧ ((HostConfig.unhideInstance throwingMap 0
            (JsProps.dict [("visible", Val.bool false)]) sampleWorld).2.store 0).visible
          = specVisible (JsProps.dict [("visible", Val.bool false)]) :=
  ⟨throwingMap_keepsStore,
    ((hide_unhide_write_only_visible throwingMap 0
      (JsProps.dict [("visible", Val.bool false)]) sampleWorld).2.2.2.2.1
        throwingMap_keepsStore).1,
    ((hide_unhide_write_only_visible throwingMap 0
      (JsProps.dict [("visible", Val.bool false)]) sampleWorld).2.2.2.2.1
        throwingMap_keepsStore).2.1⟩

end ReactPixi
